import Mathlib

/-!
Verification development for the customstream repository: a shallow embedding
of the mirror-job subsystem and Simplestream tree publisher, together with
theorems settling the specification claims.

Python dictionaries are modelled as association lists (`List (String × β)`)
with Python `dict` semantics: assignment updates the binding in place when the
key is present and appends otherwise; iteration follows insertion order.
Machine integers do not occur (Python ints are unbounded); SHA-256 words are
`Nat` reduced `% 2 ^ 32` at every operation.
-/

set_option autoImplicit false

namespace CustomStream

/-! ## Association-list primitives (Python `dict` semantics) -/

/-- `d[key]` lookup: first binding wins (keys of a Python dict are unique). -/
def alistGet {β : Type} : List (String × β) → String → Option β
  | [], _ => none
  | (k, v) :: rest, key => if k = key then some v else alistGet rest key

/-- `d[key] = v`: update the binding in place when present, append otherwise. -/
def alistSet {β : Type} : List (String × β) → String → β → List (String × β)
  | [], key, v => [(key, v)]
  | (k, w) :: rest, key, v =>
    if k = key then (k, v) :: rest else (k, w) :: alistSet rest key v

/-- `d.pop(key, None)` / `del d[key]`: remove the binding for `key`.
On lists representing actual dicts (unique keys) this matches Python. -/
def alistDrop {β : Type} (l : List (String × β)) (key : String) : List (String × β) :=
  l.filter (fun kv => kv.1 ≠ key)

/-- `key in d`. -/
def alistMem {β : Type} (l : List (String × β)) (key : String) : Bool :=
  (alistGet l key).isSome

/-! ## JSON values (the shape of `Image.meta` and upstream payloads) -/

inductive Json where
  | null : Json
  | bool (b : Bool) : Json
  | num (n : Int) : Json
  | str (s : String) : Json
  | arr (xs : List Json) : Json
  | obj (kvs : List (String × Json)) : Json

/-- A JSON object body, i.e. a Python dict. -/
abbrev Jobj := List (String × Json)

/-- Python truthiness of a JSON value. -/
def jtruthy : Json → Bool
  | .null => false
  | .bool b => b
  | .num n => n != 0
  | .str s => s != ""
  | .arr xs => !xs.isEmpty
  | .obj kvs => !kvs.isEmpty

/-- `v is None` check used by the publisher when stripping entries. -/
def isNull : Json → Bool
  | .null => true
  | _ => false

/-- `d.get(key)` (missing key yields `None`). -/
def dgetD (kvs : Jobj) (key : String) (dflt : Json) : Json :=
  (alistGet kvs key).getD dflt

/-- `d.get(key) or {}` followed by use as a dict. A present truthy non-object
value would raise a `TypeError`/`AttributeError` in Python; the data written by
this application only ever stores objects (or nothing) under these keys, and
the model maps that unreachable case to the empty dict. -/
def jgetObj (kvs : Jobj) (key : String) : Jobj :=
  match alistGet kvs key with
  | some (.obj o) => o
  | _ => []

/-- `d.get(key, {})` followed by use as a dict: the default fires only when the
key is missing.  A present non-object value is unreachable for the data this
application writes; the model maps it to the empty dict. -/
def jgetObjOrMissing (kvs : Jobj) (key : String) : Jobj :=
  match alistGet kvs key with
  | none => []
  | some (.obj o) => o
  | some _ => []

/-- `d.setdefault(key, v)`: keep the existing binding (even if `None`),
otherwise append `v`. -/
def dsetdefault (kvs : Jobj) (key : String) (v : Json) : Jobj :=
  if alistMem kvs key then kvs else kvs ++ [(key, v)]

/-- Lift an optional string column value into JSON (`None` ↦ `null`). -/
def optStr : Option String → Json
  | none => .null
  | some s => .str s

/-! ## SHA-256 (the algorithm behind `hashlib.sha256`)

Bytes are `Nat` values below 256; 32-bit words are `Nat` reduced `% 2 ^ 32`. -/

/-- A sequence of bytes. -/
abbrev Bytes := List Nat

def rotr32 (n x : Nat) : Nat :=
  ((x >>> n) ||| (x <<< (32 - n))) % 2 ^ 32

def not32 (x : Nat) : Nat := x ^^^ (2 ^ 32 - 1)

def bsig0 (x : Nat) : Nat := rotr32 2 x ^^^ rotr32 13 x ^^^ rotr32 22 x

def bsig1 (x : Nat) : Nat := rotr32 6 x ^^^ rotr32 11 x ^^^ rotr32 25 x

def ssig0 (x : Nat) : Nat := rotr32 7 x ^^^ rotr32 18 x ^^^ (x >>> 3)

def ssig1 (x : Nat) : Nat := rotr32 17 x ^^^ rotr32 19 x ^^^ (x >>> 10)

def chFn (x y z : Nat) : Nat := (x &&& y) ^^^ (not32 x &&& z)

def majFn (x y z : Nat) : Nat := (x &&& y) ^^^ (x &&& z) ^^^ (y &&& z)

def sha256K : List Nat :=
  [1116352408, 1899447441, 3049323471, 3921009573, 961987163, 1508970993,
   2453635748, 2870763221, 3624381080, 310598401, 607225278, 1426881987,
   1925078388, 2162078206, 2614888103, 3248222580, 3835390401, 4022224774,
   264347078, 604807628, 770255983, 1249150122, 1555081692, 1996064986,
   2554220882, 2821834349, 2952996808, 3210313671, 3336571891, 3584528711,
   113926993, 338241895, 666307205, 773529912, 1294757372, 1396182291,
   1695183700, 1986661051, 2177026350, 2456956037, 2730485921, 2820302411,
   3259730800, 3345764771, 3516065817, 3600352804, 4094571909, 275423344,
   430227734, 506948616, 659060556, 883997877, 958139571, 1322822218,
   1537002063, 1747873779, 1955562222, 2024104815, 2227730452, 2361852424,
   2428436474, 2756734187, 3204031479, 3329325298]

structure Hash8 where
  a : Nat
  b : Nat
  c : Nat
  d : Nat
  e : Nat
  f : Nat
  g : Nat
  h : Nat
deriving DecidableEq

def sha256Init : Hash8 :=
  ⟨1779033703, 3144134277, 1013904242, 2773480762,
   1359893119, 2600822924, 528734635, 1541459225⟩

/-- Big-endian byte expansion of `x` to `n` bytes. -/
def beBytes : Nat → Nat → Bytes
  | 0, _ => []
  | n + 1, x => beBytes n (x / 256) ++ [x % 256]

/-- SHA-256 padding: `0x80`, zeros to 56 mod 64, then the 64-bit bit length. -/
def padMessage (msg : Bytes) : Bytes :=
  let len := msg.length
  let zeros := (119 - len % 64) % 64
  msg ++ [128] ++ List.replicate zeros 0 ++ beBytes 8 (8 * len)

/-- Group bytes into big-endian 32-bit words. -/
def bytesToWords : Bytes → List Nat
  | b0 :: b1 :: b2 :: b3 :: rest =>
    (((b0 * 256 + b1) * 256 + b2) * 256 + b3) :: bytesToWords rest
  | _ => []

/-- The next word of the message schedule, from the words produced so far. -/
def nextScheduleWord (ws : List Nat) : Nat :=
  let l := ws.length
  (ssig1 (ws.getD (l - 2) 0) + ws.getD (l - 7) 0 + ssig0 (ws.getD (l - 15) 0) +
      ws.getD (l - 16) 0) % 2 ^ 32

/-- Extend the 16 block words to the 64-entry message schedule. -/
def schedule (w16 : List Nat) : List Nat :=
  (List.range 48).foldl (fun ws _ => ws ++ [nextScheduleWord ws]) w16

def sha256Round (st : Hash8) (k w : Nat) : Hash8 :=
  let t1 := (st.h + bsig1 st.e + chFn st.e st.f st.g + k + w) % 2 ^ 32
  let t2 := (bsig0 st.a + majFn st.a st.b st.c) % 2 ^ 32
  ⟨(t1 + t2) % 2 ^ 32, st.a, st.b, st.c, (st.d + t1) % 2 ^ 32, st.e, st.f, st.g⟩

def sha256Compress (hs : Hash8) (block : Bytes) : Hash8 :=
  let ws := schedule (bytesToWords block)
  let st := (sha256K.zip ws).foldl (fun st kw => sha256Round st kw.1 kw.2) hs
  ⟨(hs.a + st.a) % 2 ^ 32, (hs.b + st.b) % 2 ^ 32, (hs.c + st.c) % 2 ^ 32,
   (hs.d + st.d) % 2 ^ 32, (hs.e + st.e) % 2 ^ 32, (hs.f + st.f) % 2 ^ 32,
   (hs.g + st.g) % 2 ^ 32, (hs.h + st.h) % 2 ^ 32⟩

/-- Process `n` 64-byte blocks of `rest`. -/
def sha256Blocks (hs : Hash8) (rest : Bytes) : Nat → Hash8
  | 0 => hs
  | n + 1 => sha256Blocks (sha256Compress hs (rest.take 64)) (rest.drop 64) n

def sha256Words (msg : Bytes) : Hash8 :=
  let padded := padMessage msg
  sha256Blocks sha256Init padded (padded.length / 64)

def hexDigit (n : Nat) : Char :=
  if n < 10 then Char.ofNat (48 + n) else Char.ofNat (87 + n)

/-- Lower-case hexadecimal rendering of a 32-bit word. -/
def hexWord (x : Nat) : String :=
  String.mk ((List.range 8).map (fun i => hexDigit (x >>> (4 * (7 - i)) % 16)))

/-- `hashlib.sha256(data).hexdigest()` for a complete byte string. -/
def sha256Hex (msg : Bytes) : String :=
  let hv := sha256Words msg
  hexWord hv.a ++ hexWord hv.b ++ hexWord hv.c ++ hexWord hv.d ++ hexWord hv.e ++
    hexWord hv.f ++ hexWord hv.g ++ hexWord hv.h

/-- ASCII/UTF-8 bytes of a string (used only for concrete test vectors). -/
def strBytes (s : String) : Bytes :=
  s.data.map (fun c => c.toNat)

/-! ## Entity rows (`app/models`) -/

/-- A row of the `streams` table. -/
structure StreamRow where
  id : Nat
  stream_id : String
  path : String
  datatype : String
  format : String
  source_index_url : Option String
deriving DecidableEq

/-- A row of the `images` table.  `meta` is the JSON column (`None` ↦ `none`). -/
structure ImageRow where
  id : Nat
  stream_id : Nat
  product_id : String
  name : String
  image_type : String
  status : String
  origin_product_url : Option String
  origin_index_url : Option String
  os : Option String
  release : Option String
  version : Option String
  arch : Option String
  subarch : Option String
  label : Option String
  kflavor : Option String
  krel : Option String
  build_id : Option String
  meta : Option Jobj

/-- A row of the `artifacts` table.  Sizes written by this application are
byte counts, hence `Nat`. -/
structure ArtifactRow where
  image_id : Nat
  name : String
  ftype : String
  relative_path : String
  size : Option Nat
  sha256 : Option String
  source_url : Option String

/-- A row of the `mirror_jobs` table.  Timestamps are opaque ticks. -/
structure MirrorJobRow where
  id : Nat
  product_id : String
  index_url : String
  status : String
  message : Option String
  progress : Nat
  image_id : Option Nat
  started_at : Option Nat
  finished_at : Option Nat
deriving DecidableEq

/-- The catalog store, with fresh-id counters for newly inserted rows. -/
structure DB where
  streams : List StreamRow
  images : List ImageRow
  artifacts : List ArtifactRow
  jobs : List MirrorJobRow
  nextStreamId : Nat
  nextImageId : Nat
  nextJobId : Nat

/-! ## Storage I/O (`app/services/storage.py`) -/

/-- The filesystem under `storage_root`: a map from path to byte contents. -/
abbrev FS := List (String × Bytes)

/-- `Path(storage_root) / relative_path` for the relative paths this
application produces. -/
def joinPath (root rel : String) : String :=
  root ++ "/" ++ rel

/-- `safe_remove(path)`: unlink if present, no-op otherwise. -/
def safe_remove (fs : FS) (path : String) : FS :=
  fs.filter (fun kv => kv.1 ≠ path)

/-- The outcome the upstream HTTP server produces for a streaming GET.
`httpError` covers connection failures and `raise_for_status` (no file is
opened); `body chunks err` delivers `chunks` into the open file and then
either ends the stream (`err = none`) or fails mid-stream (`err = some e`). -/
inductive Download where
  | httpError (msg : String)
  | body (chunks : List Bytes) (err : Option String)

/-- State of the download loop in `download_with_hash`: the bytes written to
the destination file, the running byte count, and the bytes folded into the
running `hashlib.sha256` hasher (its documented contract: the final digest is
the digest of the concatenation of all bytes passed to `update`). -/
structure HashLoop where
  written : Bytes
  size : Nat
  absorbed : Bytes

/-- One iteration of `async for chunk in response.aiter_bytes()`. -/
def hashStep (st : HashLoop) (chunk : Bytes) : HashLoop :=
  { written := st.written ++ chunk
    size := st.size + chunk.length
    absorbed := st.absorbed ++ chunk }

/-- `download_with_hash(client, url, destination)`: stream the body to
`destination` while accumulating size and SHA-256; return `(size, hexdigest)`.
On an HTTP status error the file is never opened; on a mid-stream error the
partial file remains on disk and the error propagates to the caller. -/
def download_with_hash (fetch : String → Download) (url destination : String) (fs : FS) :
    FS × Except String (Nat × String) :=
  match fetch url with
  | .httpError e => (fs, .error e)
  | .body chunks err =>
    let st := chunks.foldl hashStep ⟨[], 0, []⟩
    let fs := alistSet fs destination st.written
    match err with
    | some e => (fs, .error e)
    | none => (fs, .ok (st.size, sha256Hex st.absorbed))

/-! ## Tree publisher (`app/services/simplestream.py`) -/

/-- The `Image.artifacts` relationship: artifact rows belonging to an image,
in table order. -/
def artifactsOf (artifacts : List ArtifactRow) (img : ImageRow) : List ArtifactRow :=
  artifacts.filter (fun a => a.image_id = img.id)

/-- The inner artifact-override loop body: if `artifact.name in items`, set
`path` from the row, and `sha256` / `size` only when the row's value is truthy.
The data this application writes always stores items as objects; a non-object
item value (which would raise in Python) is left unchanged. -/
def shaOverride (a : ArtifactRow) (item : Jobj) : Jobj :=
  match a.sha256 with
  | some s => if s ≠ "" then alistSet item "sha256" (.str s) else item
  | none => item

def sizeOverride (a : ArtifactRow) (item : Jobj) : Jobj :=
  match a.size with
  | some n => if n ≠ 0 then alistSet item "size" (.num n) else item
  | none => item

def applyArtifactToItems (items : Jobj) (a : ArtifactRow) : Jobj :=
  match alistGet items a.name with
  | some (.obj item) =>
    alistSet items a.name
      (.obj (sizeOverride a (shaOverride a (alistSet item "path" (.str a.relative_path)))))
  | _ => items

/-- Override one version entry: `items = version_data.get("items") or \x7b\x7d`,
apply every artifact row, then store the result back under `"items"`. -/
def overrideVersionData (arts : List ArtifactRow) (vd : Jobj) : Jobj :=
  let items := jgetObj vd "items"
  let items := arts.foldl applyArtifactToItems items
  alistSet vd "items" (.obj items)

/-- The `versions` override block of `_write_stream_products`: skipped when
`entry.get("versions")` is falsy; otherwise every version entry is rewritten.
Version values are objects for the data this application writes; a non-object
version value (which would raise in Python) is left unchanged. -/
def overrideVersions (arts : List ArtifactRow) (entry : Jobj) : Jobj :=
  match alistGet entry "versions" with
  | some (.obj vs) =>
    if vs.isEmpty then entry
    else
      let vs := vs.map (fun kv =>
        (kv.1, match kv.2 with
          | .obj vd => Json.obj (overrideVersionData arts vd)
          | other => other))
      alistSet entry "versions" (.obj vs)
  | _ => entry

/-- `\x7bkey: value for key, value in entry.items() if value is not None\x7d`. -/
def cleanEntry (entry : Jobj) : Jobj :=
  entry.filter (fun kv => !isNull kv.2)

/-- The per-image body of `_write_stream_products`: `none` when the image is
skipped (`deepcopy(image.meta or \x7b\x7d)` is empty), otherwise the published
product entry.  Note that `image.status` is never consulted. -/
def imageEntry (img : ImageRow) (arts : List ArtifactRow) : Option Jobj :=
  let metaObj := img.meta.getD []
  if metaObj.isEmpty then none
  else
    let entry := metaObj
    let entry := dsetdefault entry "os" (optStr img.os)
    let entry := dsetdefault entry "release" (optStr img.release)
    let entry := dsetdefault entry "version" (optStr img.version)
    let entry := dsetdefault entry "arch" (optStr img.arch)
    let entry := dsetdefault entry "subarch" (optStr img.subarch)
    -- `if image.meta:` is true here, since `metaObj` is a non-empty dict
    let entry := match alistGet metaObj "release_codename" with
      | some v => if jtruthy v then dsetdefault entry "release_codename" v else entry
      | none => entry
    let entry := match alistGet metaObj "subarches" with
      | some v => if jtruthy v then dsetdefault entry "subarches" v else entry
      | none => entry
    let entry := dsetdefault entry "label" (optStr img.label)
    let entry := dsetdefault entry "kflavor" (optStr img.kflavor)
    let entry := dsetdefault entry "krel" (optStr img.krel)
    let entry := overrideVersions arts entry
    some (cleanEntry entry)

/-- `sorted(stream.images, key=lambda item: item.product_id)`. -/
def sortImages (images : List ImageRow) : List ImageRow :=
  List.insertionSort (fun a b => a.product_id ≤ b.product_id) images

/-- One iteration of the per-image loop: skipped images leave the payload
unchanged, the rest are stored under their `product_id`. -/
def productsStep (artifacts : List ArtifactRow) (acc : Jobj) (img : ImageRow) : Jobj :=
  match imageEntry img (artifactsOf artifacts img) with
  | none => acc
  | some e => alistSet acc img.product_id (.obj e)

/-- The `products` object of the per-stream products file written by
`_write_stream_products`. -/
def writeStreamProducts (images : List ImageRow) (artifacts : List ArtifactRow) : Jobj :=
  (sortImages images).foldl (productsStep artifacts) []

/-- The full products-file payload (the `updated` timestamp is a parameter). -/
def streamProductsFile (contentId now : String) (images : List ImageRow)
    (artifacts : List ArtifactRow) : Jobj :=
  [("datatype", .str "image-ids"), ("format", .str "products:1.0"),
   ("products", .obj (writeStreamProducts images artifacts)),
   ("updated", .str now), ("content_id", .str contentId)]

/-- `sorted(image.product_id for image in stream.images)`. -/
def indexProductsList (images : List ImageRow) : List String :=
  List.insertionSort (fun a b => a ≤ b) (images.map (fun i => i.product_id))

/-- The `Stream.images` relationship. -/
def imagesOfStream (images : List ImageRow) (s : StreamRow) : List ImageRow :=
  images.filter (fun i => i.stream_id = s.id)

/-- The per-stream entry of `streams/v1/index.json`. -/
def indexEntry (s : StreamRow) (images : List ImageRow) (now : String) : Jobj :=
  [("datatype", .str s.datatype), ("format", .str s.format), ("path", .str s.path),
   ("products", .arr ((indexProductsList images).map Json.str)),
   ("updated", .str now), ("content_id", .str s.stream_id)]

/-- `select(Stream).order_by(Stream.stream_id)`. -/
def sortStreams (streams : List StreamRow) : List StreamRow :=
  List.insertionSort (fun a b => a.stream_id ≤ b.stream_id) streams

/-- What `rebuild_simplestream_files` writes: the `index` object of
`streams/v1/index.json` and, per non-empty stream, the products file at
`storage_root/<stream.path>`. -/
structure RebuildOutput where
  indexEntries : List (String × Jobj)
  productFiles : List (String × Jobj)

/-- One iteration of the per-stream loop of `rebuild_simplestream_files`:
streams with zero images are skipped, the rest contribute an index entry and a
products file. -/
def rebuildStep (images : List ImageRow) (artifacts : List ArtifactRow) (now : String)
    (out : RebuildOutput) (s : StreamRow) : RebuildOutput :=
  let imgs := imagesOfStream images s
  if imgs.isEmpty then out
  else
    { indexEntries := alistSet out.indexEntries s.stream_id (indexEntry s imgs now)
      productFiles :=
        alistSet out.productFiles s.path
          (streamProductsFile s.stream_id now imgs artifacts) }

/-- `rebuild_simplestream_files(session)`: regenerate the index and every
per-stream products file from the database state. -/
def rebuild_simplestream_files (db : DB) (now : String) : RebuildOutput :=
  (sortStreams db.streams).foldl (rebuildStep db.images db.artifacts now) ⟨[], []⟩

/-! ## Request intake and job queue (`app/api/routes.py`, `app/services/mirror_job.py`) -/

/-- `find_active_job(session, product_id)`: the first MirrorJob for the
product in status `queued` or `running`. -/
def find_active_job (jobs : List MirrorJobRow) (pid : String) : Option MirrorJobRow :=
  jobs.find? (fun j => j.product_id == pid && (j.status == "queued" || j.status == "running"))

/-- `enqueue_job(session, index_url, product_id)`: insert a `queued` job with
progress 0. -/
def enqueue_job (db : DB) (indexUrl pid : String) : DB × MirrorJobRow :=
  let job : MirrorJobRow :=
    { id := db.nextJobId, product_id := pid, index_url := indexUrl, status := "queued"
      message := none, progress := 0, image_id := none, started_at := none, finished_at := none }
  ({ db with jobs := db.jobs ++ [job], nextJobId := db.nextJobId + 1 }, job)

/-- The first Image for the product in status `mirroring` (any stream). -/
def findMirroringImage (images : List ImageRow) (pid : String) : Option ImageRow :=
  images.find? (fun i => i.product_id == pid && i.status == "mirroring")

/-- Accumulator of the intake loop: session state, `enqueued`, `skipped`, and
the `(job_id, product_id)` summaries, each in request order. -/
structure IntakeAcc where
  db : DB
  enqueued : List String
  skipped : List String
  jobs : List (Nat × String)

/-- One iteration of the `for product_id in payload.product_ids` loop of the
`POST /api/mirror` handler. -/
def intakeStep (indexUrl : String) (acc : IntakeAcc) (pid : String) : IntakeAcc :=
  match findMirroringImage acc.db.images pid with
  | some _ => { acc with skipped := acc.skipped ++ [pid ++ " (already mirroring)"] }
  | none =>
    match find_active_job acc.db.jobs pid with
    | some _ => { acc with skipped := acc.skipped ++ [pid ++ " (already queued)"] }
    | none =>
      let (db, job) := enqueue_job acc.db indexUrl pid
      { db := db, enqueued := acc.enqueued ++ [pid]
        skipped := acc.skipped, jobs := acc.jobs ++ [(job.id, pid)] }

/-- Result of the intake endpoint: the committed database, the HTTP response
(client error or `MirrorResult` fields), and whether the request committed and
signalled the worker. -/
structure IntakeOutcome where
  db : DB
  result : Except String (List String × List String × List (Nat × String))
  committed : Bool
  triggered : Bool

/-- The `POST /api/mirror` handler `mirror_products` in `routes.py`: process
products in order, raise a 400 only when both `enqueued` and `skipped` are
empty, and commit + trigger the worker only when something was enqueued
(uncommitted session state is discarded otherwise). -/
def mirror_products_route (db : DB) (indexUrl : String) (productIds : List String) :
    IntakeOutcome :=
  let acc := productIds.foldl (intakeStep indexUrl) ⟨db, [], [], []⟩
  if acc.enqueued.isEmpty ∧ acc.skipped.isEmpty then
    { db := db, result := .error "No products selected for mirroring"
      committed := false, triggered := false }
  else if acc.enqueued.isEmpty then
    { db := db, result := .ok (acc.enqueued, acc.skipped, acc.jobs)
      committed := false, triggered := false }
  else
    { db := acc.db, result := .ok (acc.enqueued, acc.skipped, acc.jobs)
      committed := true, triggered := true }

/-- The per-job body of `resume_pending_jobs`. -/
def resumeJob (j : MirrorJobRow) : MirrorJobRow :=
  if j.status = "running" then
    { j with
      status := "queued", message := some "Resumed after service restart",
      started_at := none, finished_at := none, progress := 0 }
  else j

/-- `resume_pending_jobs()`: requeue every `running` job, commit, and trigger
the worker (the returned flag). -/
def resume_pending_jobs (db : DB) : DB × Bool :=
  ({ db with jobs := db.jobs.map resumeJob }, true)

/-! ## Mirror engine (`app/services/mirror.py`)

The engine is parameterised by the ambient context: the `urljoin` function,
the storage root and the upstream HTTP behaviour, so theorems quantify over
arbitrary upstreams. -/

structure MirrorCtx where
  urljoin : String → String → String
  storageRoot : String
  fetch : String → Download
  fetchJson : String → Except String Jobj

/-- A single apostrophe (used in `MirrorError` messages). -/
def sq : String := String.singleton (Char.ofNat 39)

def missingPathMsg (itemName : String) : String :=
  "Item " ++ sq ++ itemName ++ sq ++ " missing path"

def downloadFailMsg (relPath err : String) : String :=
  "Failed to download " ++ sq ++ relPath ++ sq ++ ": " ++ err

/-- Read a JSON object out of a value known to be an object. -/
def itemObj : Json → Jobj
  | .obj o => o
  | _ => []

/-- Optional-string column value from a product-metadata field; values that
are not strings (which this upstream format never produces) are out of model. -/
def jToOptStr : Option Json → Option String
  | some (.str s) => some s
  | _ => none

/-- `d.get(key, default)` for string-valued fields; a present non-string value
is out of model and yields the default. -/
def strGetD (kvs : Jobj) (key dflt : String) : String :=
  match alistGet kvs key with
  | some (.str s) => s
  | _ => dflt

/-- `_derive_image_name`: `meta.get("release_title") or meta.get("label") or
"Image"`, with the architecture appended when truthy.  Non-string truthy
values (never produced upstream) are out of model. -/
def derive_image_name (meta : Jobj) : String :=
  let titleJ :=
    if jtruthy (dgetD meta "release_title" .null) then dgetD meta "release_title" .null
    else if jtruthy (dgetD meta "label" .null) then dgetD meta "label" .null
    else .str "Image"
  let title := match titleJ with
    | .str s => s
    | _ => ""
  match dgetD meta "arch" .null with
  | .str s => if s ≠ "" then title ++ " (" ++ s ++ ")" else title
  | _ => title

/-- Python string comparison `a < b`: lexicographic on Unicode code points
(the order `max()` uses over `versions.keys()`). -/
def charListLt : List Char → List Char → Bool
  | [], [] => false
  | [], _ :: _ => true
  | _ :: _, [] => false
  | c :: cs, d :: ds =>
    if c < d then true
    else if d < c then false
    else charListLt cs ds

def strLt (a b : String) : Bool :=
  charListLt a.data b.data

/-- `_latest_version`: fail on an empty dict, otherwise pick
`max(versions.keys())` (lexicographically greatest key). -/
def maxKey (versions : Jobj) : String :=
  match versions with
  | [] => ""
  | (k, _) :: rest => rest.foldl (fun acc kv => if strLt acc kv.1 then kv.1 else acc) k

def latest_version (versions : Jobj) : Except String (String × Json) :=
  match versions with
  | [] => .error "No versions available"
  | _ => .ok (maxKey versions, dgetD versions (maxKey versions) .null)

/-- The `products` list of an index-stream entry, used by
`_find_stream_for_product` (`product_id in entry.get("products", [])`). -/
def entryProducts (entry : Json) : List Json :=
  match entry with
  | .obj o =>
    match alistGet o "products" with
    | some (.arr xs) => xs
    | _ => []
  | _ => []

def find_stream_for_product (pid : String) (streams : Jobj) :
    Except String (String × Jobj) :=
  match streams.find? (fun kv =>
      (entryProducts kv.2).any (fun j =>
        match j with
        | .str s => s == pid
        | _ => false)) with
  | some (sid, entry) => .ok (sid, itemObj entry)
  | none => .error ("Product " ++ sq ++ pid ++ sq ++ " not present in upstream index")

/-- `_get_or_create_stream`: update the existing Stream row in place or insert
a new one. -/
def get_or_create_stream (db : DB) (streamId : String) (entry : Jobj) (indexUrl : String) :
    DB × StreamRow :=
  match db.streams.find? (fun s => s.stream_id == streamId) with
  | some s =>
    let s2 := { s with
      path := strGetD entry "path" s.path, datatype := strGetD entry "datatype" s.datatype,
      format := strGetD entry "format" s.format, source_index_url := some indexUrl }
    ({ db with streams := db.streams.map (fun t => if t.id = s.id then s2 else t) }, s2)
  | none =>
    let s : StreamRow :=
      { id := db.nextStreamId, stream_id := streamId,
        path := strGetD entry "path" "", datatype := strGetD entry "datatype" "image-ids",
        format := strGetD entry "format" "products:1.0", source_index_url := some indexUrl }
    ({ db with streams := db.streams ++ [s], nextStreamId := db.nextStreamId + 1 }, s)

/-- `_remove_existing_image`: if an Image with `(stream_id, product_id)`
exists, `safe_remove` each of its artifact files and delete the row (the
Artifact rows cascade). -/
def remove_existing_image (ctx : MirrorCtx) (db : DB) (fs : FS) (streamDbId : Nat)
    (pid : String) : DB × FS :=
  match db.images.find? (fun i => i.stream_id == streamDbId && i.product_id == pid) with
  | none => (db, fs)
  | some existing =>
    let arts := db.artifacts.filter (fun a => a.image_id == existing.id)
    let fs2 := arts.foldl (fun acc a => safe_remove acc (joinPath ctx.storageRoot a.relative_path)) fs
    ({ db with
        images := db.images.filter (fun i => i.id ≠ existing.id),
        artifacts := db.artifacts.filter (fun a => a.image_id ≠ existing.id) }, fs2)

/-- `_build_entry_copy`: the product metadata minus `versions`, plus a single
`versions` entry for the chosen key whose `items` is
`deepcopy(version_data.get("items", \x7b\x7d))`. -/
def build_entry_copy (meta : Jobj) (vk : String) (vd : Jobj) : Jobj :=
  let entry := meta.filter (fun kv => kv.1 ≠ "versions")
  let inner := alistSet vd "items" (dgetD vd "items" (.obj []))
  alistSet entry "versions" (.obj [(vk, .obj inner)])

/-- `entry_copy["versions"][vk]["items"] = v` (all levels exist for entries
produced by `build_entry_copy`; otherwise a no-op). -/
def setVersionsItems (entry : Jobj) (vk : String) (v : Json) : Jobj :=
  match alistGet entry "versions" with
  | some (.obj vs) =>
    match alistGet vs vk with
    | some (.obj vd) =>
      alistSet entry "versions" (.obj (alistSet vs vk (.obj (alistSet vd "items" v))))
    | _ => entry
  | _ => entry

/-- `entry_copy["versions"][vk]["items"][item_name] = v`. -/
def setVersionsItem (entry : Jobj) (vk itemName : String) (v : Json) : Jobj :=
  match alistGet entry "versions" with
  | some (.obj vs) =>
    match alistGet vs vk with
    | some (.obj vd) =>
      match alistGet vd "items" with
      | some (.obj its) =>
        alistSet entry "versions"
          (.obj (alistSet vs vk (.obj (alistSet vd "items" (.obj (alistSet its itemName v))))))
      | _ => entry
    | _ => entry
  | _ => entry

/-- `item_meta.get("path")` followed by the `if not relative_path` check.
A non-object `item_meta` or a truthy non-string path raises inside the same
`try` block in Python; neither occurs in upstream data and both are folded
into the missing-path failure here. -/
def pathOf : Json → Option String
  | .obj o =>
    match alistGet o "path" with
    | some (.str s) => if s = "" then none else some s
    | _ => none
  | _ => none

/-- `local_meta.get("ftype", item_name)`; non-string `ftype` values are out of
model. -/
def ftypeOf (localMeta : Jobj) (itemName : String) : String :=
  match alistGet localMeta "ftype" with
  | some (.str s) => s
  | _ => itemName

/-- Result of the item-download loop inside `_materialise_product`'s `try`
block: on failure it carries the filesystem (partial file already removed),
the mutated `entry_copy`, and the `MirrorError` message. -/
inductive ItemsResult where
  | ok (fs : FS) (entryCopy : Jobj) (rows : List ArtifactRow)
  | fail (fs : FS) (entryCopy : Jobj) (msg : String)

/-- The `for item_name, item_meta in items.items()` loop: download each item,
remove the partial file and fail on error, otherwise record the observed
`path`/`size`/`sha256` in `entry_copy` and queue an Artifact row. -/
def downloadItems (ctx : MirrorCtx) (rootBase vk : String) :
    FS → Jobj → List ArtifactRow → List (String × Json) → ItemsResult
  | fs, ec, rows, [] => .ok fs ec rows
  | fs, ec, rows, (itemName, itemMeta) :: rest =>
    match pathOf itemMeta with
    | none => .fail fs ec (missingPathMsg itemName)
    | some relPath =>
      let downloadUrl := ctx.urljoin rootBase relPath
      let destination := joinPath ctx.storageRoot relPath
      match download_with_hash ctx.fetch downloadUrl destination fs with
      | (fs2, .error e) =>
        let fs3 := safe_remove fs2 destination
        let ec2 := alistSet ec "status_detail"
          (.str ("Failed to download " ++ itemName ++ ": " ++ e))
        .fail fs3 ec2 (downloadFailMsg relPath e)
      | (fs2, .ok sizeSha) =>
        let localMeta := itemObj itemMeta
        let localMeta := alistSet localMeta "path" (.str relPath)
        let localMeta := alistSet localMeta "size" (.num sizeSha.1)
        let localMeta := alistSet localMeta "sha256" (.str sizeSha.2)
        let ec2 := setVersionsItem ec vk itemName (.obj localMeta)
        let row : ArtifactRow :=
          { image_id := 0, name := itemName, ftype := ftypeOf localMeta itemName,
            relative_path := relPath, size := some sizeSha.1, sha256 := some sizeSha.2,
            source_url := some downloadUrl }
        downloadItems ctx rootBase vk fs2 ec2 (rows ++ [row]) rest

/-- `session.add(image)` for an already-inserted row: replace it in place. -/
def updateImage (images : List ImageRow) (img : ImageRow) : List ImageRow :=
  images.map (fun i => if i.id = img.id then img else i)

/-- Final state of `_materialise_product` / `_mirror_single_product`: the
committed database and filesystem, the returned image id or the raised
`MirrorError` message, and whether the tree publisher ran afterwards. -/
structure MaterialiseResult where
  db : DB
  fs : FS
  result : Except String Nat
  rebuilt : Bool

/-- The `entry_copy` dict at the moment downloads start: the product metadata
with a single reset `versions[vk].items` entry and the transient
`status_detail`. -/
def mirrorEntryCopy (productMeta : Jobj) (vk : String) (vd : Jobj) : Jobj :=
  alistSet (setVersionsItems (build_entry_copy productMeta vk vd) vk (.obj []))
    "status_detail" (.str "Downloading artifacts")

/-- The `Image(...)` row inserted (and committed) before downloads begin. -/
def mirrorImageRow (ctx : MirrorCtx) (imageId : Nat) (indexUrl rootBase : String)
    (stream : StreamRow) (streamEntry : Jobj) (pid : String) (productMeta : Jobj)
    (vk : String) (vd : Jobj) : ImageRow :=
  { id := imageId, stream_id := stream.id, product_id := pid,
    name := derive_image_name productMeta, image_type := "mirrored", status := "mirroring",
    origin_product_url := some (ctx.urljoin rootBase (strGetD streamEntry "path" "")),
    origin_index_url := some indexUrl,
    os := jToOptStr (alistGet productMeta "os"),
    release := jToOptStr (alistGet productMeta "release"),
    version := jToOptStr (alistGet productMeta "version"),
    arch := jToOptStr (alistGet productMeta "arch"),
    subarch := jToOptStr (alistGet productMeta "subarch"),
    label := jToOptStr (alistGet productMeta "label"),
    kflavor := jToOptStr (alistGet productMeta "kflavor"),
    krel := jToOptStr (alistGet productMeta "krel"),
    build_id := some vk, meta := some (mirrorEntryCopy productMeta vk vd) }

/-- `_materialise_product`: evict the predecessor Image, commit the new
`mirroring` Image, download every item; on success promote to `ready` and
attach the Artifact rows, on failure record `meta.error` and `status = error`
with no Artifact rows; in both branches publish the tree when `rebuild` and
propagate the result.

A present non-object `versions[vk]["items"]` value would raise inside the
`try` block in Python; this application never produces one and the model reads
it as the empty dict. -/
def materialise_product (ctx : MirrorCtx) (db0 : DB) (fs0 : FS)
    (indexUrl rootBase : String) (stream : StreamRow) (streamEntry : Jobj) (pid : String)
    (productMeta : Jobj) (vk : String) (vd : Jobj) (rebuild : Bool) : MaterialiseResult :=
  let evicted := remove_existing_image ctx db0 fs0 stream.id pid
  let db1 := evicted.1
  let fs1 := evicted.2
  let ec0 := mirrorEntryCopy productMeta vk vd
  let img := mirrorImageRow ctx db1.nextImageId indexUrl rootBase stream streamEntry pid
    productMeta vk vd
  let db2 := { db1 with images := db1.images ++ [img], nextImageId := db1.nextImageId + 1 }
  -- first commit: the eviction and the new `mirroring` Image are now durable
  let items := jgetObjOrMissing vd "items"
  match downloadItems ctx rootBase vk fs1 ec0 [] items with
  | .ok fs2 ec rows =>
    let ec := alistDrop ec "status_detail"
    let img2 :=
      { img with
        status := "ready", meta := some ec, name := derive_image_name productMeta }
    let rows := rows.map (fun r => { r with image_id := img.id })
    let db3 :=
      { db2 with
        images := updateImage db2.images img2, artifacts := db2.artifacts ++ rows }
    { db := db3, fs := fs2, result := .ok img.id, rebuilt := rebuild }
  | .fail fs2 ec msg =>
    let ec := alistDrop ec "status_detail"
    let ec := alistSet ec "error" (.str msg)
    let img2 := { img with status := "error", meta := some ec }
    let db3 := { db2 with images := updateImage db2.images img2 }
    { db := db3, fs := fs2, result := .error msg, rebuilt := rebuild }

/-- `_mirror_single_product`: locate the stream for the product, upsert the
Stream row, fetch the products file, pick the latest version and materialise.
Errors raised before the first commit roll the session back, so the committed
state is the original database.  Truthy non-object metadata (never produced by
a Simplestream upstream) is out of model and mapped to an error result. -/
def mirror_single_product (ctx : MirrorCtx) (db0 : DB) (fs0 : FS)
    (indexUrl pid : String) (availableStreams : Jobj) (rootBase : String)
    (rebuild : Bool) : MaterialiseResult :=
  match find_stream_for_product pid availableStreams with
  | .error e => { db := db0, fs := fs0, result := .error e, rebuilt := false }
  | .ok (streamId, streamEntry) =>
    let upserted := get_or_create_stream db0 streamId streamEntry indexUrl
    match ctx.fetchJson (ctx.urljoin rootBase (strGetD streamEntry "path" "")) with
    | .error e => { db := db0, fs := fs0, result := .error e, rebuilt := false }
    | .ok payload =>
      let pm := dgetD (jgetObjOrMissing payload "products") pid .null
      if jtruthy pm then
        match pm with
        | .obj pmo =>
          match latest_version (jgetObjOrMissing pmo "versions") with
          | .error e => { db := db0, fs := fs0, result := .error e, rebuilt := false }
          | .ok (vk, vdJ) =>
            if jtruthy vdJ then
              match vdJ with
              | .obj vd =>
                materialise_product ctx upserted.1 fs0 indexUrl rootBase upserted.2
                  streamEntry pid pmo vk vd rebuild
              | _ =>
                { db := db0, fs := fs0,
                  result := .error "Unsupported version entry in upstream response",
                  rebuilt := false }
            else
              { db := db0, fs := fs0,
                result := .error "No version entries available for product", rebuilt := false }
        | _ =>
          { db := db0, fs := fs0,
            result := .error "Unsupported product metadata in upstream response",
            rebuilt := false }
      else
        { db := db0, fs := fs0,
          result := .error "Product metadata missing in upstream response", rebuilt := false }

/-- The upstream serves this item completely: its metadata has a path and the
fetch streams to EOF without error. -/
def itemDownloadOk (ctx : MirrorCtx) (rootBase : String) (it : String × Json) : Prop :=
  ∃ p chunks, pathOf it.2 = some p ∧ ctx.fetch (ctx.urljoin rootBase p) = .body chunks none

/-- Downloading `p` fails with error `e`: either before the file is opened or
mid-stream. -/
def downloadFails (ctx : MirrorCtx) (rootBase p e : String) : Prop :=
  ctx.fetch (ctx.urljoin rootBase p) = .httpError e ∨
    ∃ chunks, ctx.fetch (ctx.urljoin rootBase p) = .body chunks (some e)

/-- What the publisher's artifact-override loop guarantees for one published
item: `path` always comes from the Artifact row, `sha256` and `size` come from
the row exactly when the row's value is truthy and otherwise keep the value
recorded in `meta`. -/
def overrideSpec (item item2 : Jobj) (a : ArtifactRow) : Prop :=
  alistGet item2 "path" = some (.str a.relative_path) ∧
  (∀ s, a.sha256 = some s → s ≠ "" → alistGet item2 "sha256" = some (.str s)) ∧
  ((a.sha256 = none ∨ a.sha256 = some "") →
    alistGet item2 "sha256" = alistGet item "sha256") ∧
  (∀ n, a.size = some n → n ≠ 0 → alistGet item2 "size" = some (.num n)) ∧
  ((a.size = none ∨ a.size = some 0) → alistGet item2 "size" = alistGet item "size")

def c6RunningJob : MirrorJobRow :=
  { id := 1, product_id := "p1", index_url := "http://u.example/streams/v1/index.json",
    status := "running", message := none, progress := 10, image_id := none,
    started_at := some 5, finished_at := none }

def c6Db : DB :=
  { streams := [], images := [], artifacts := [], jobs := [c6RunningJob],
    nextStreamId := 1, nextImageId := 1, nextJobId := 2 }

/-- The queued MirrorJobs for a product. -/
def queuedJobsFor (jobs : List MirrorJobRow) (pid : String) : List MirrorJobRow :=
  jobs.filter (fun j => j.product_id == pid && j.status == "queued")

/-- The job row inserted by `enqueue_job`. -/
def freshJob (db : DB) (url pid : String) : MirrorJobRow :=
  { id := db.nextJobId, product_id := pid, index_url := url, status := "queued",
    message := none, progress := 0, image_id := none, started_at := none, finished_at := none }

def c3Db : DB :=
  { streams := [], images := [], artifacts := [], jobs := [],
    nextStreamId := 1, nextImageId := 1, nextJobId := 1 }

def c4QueuedJob : MirrorJobRow :=
  { id := 1, product_id := "p1", index_url := "u", status := "queued",
    message := none, progress := 0, image_id := none, started_at := none, finished_at := none }

def c4Db : DB :=
  { streams := [], images := [], artifacts := [], jobs := [c4QueuedJob],
    nextStreamId := 1, nextImageId := 1, nextJobId := 2 }

def c7Vd : Jobj := [("items", .obj [])]

def c7Versions : Jobj := [("20240101", .obj c7Vd), ("20240202", .obj c7Vd)]

def c7Pm : Jobj := [("versions", .obj c7Versions)]

def c7StreamEntry : Jobj :=
  [("path", .str "streams/v1/s1.json"), ("products", .arr [.str "p1"])]

def c7Streams : Jobj := [("s1", .obj c7StreamEntry)]

def c7Payload : Jobj := [("products", .obj [("p1", .obj c7Pm)])]

def c7Ctx : MirrorCtx :=
  { urljoin := fun a b => a ++ b, storageRoot := "root",
    fetch := fun _ => .body [] none, fetchJson := fun _ => .ok c7Payload }

def c7Db : DB :=
  { streams := [], images := [], artifacts := [], jobs := [],
    nextStreamId := 1, nextImageId := 1, nextJobId := 1 }

def c2FailMeta : Json := .obj [("path", .str "s1/p1/root.tar")]

def c2Vd : Jobj := [("items", .obj [("root.tar", c2FailMeta)])]

def c2Pm : Jobj := [("os", .str "ubuntu"), ("versions", .obj [("20240101", .obj c2Vd)])]

def c2Stream : StreamRow :=
  { id := 3, stream_id := "s1", path := "streams/v1/s1.json", datatype := "image-ids",
    format := "products:1.0", source_index_url := none }

def c2Ctx : MirrorCtx :=
  { urljoin := fun a b => a ++ b, storageRoot := "root",
    fetch := fun u =>
      if u = "base/s1/p1/root.tar" then .body [[104, 101]] (some "boom")
      else .body [[1]] none,
    fetchJson := fun _ => .error "unused" }

def c2Db : DB :=
  { streams := [c2Stream], images := [], artifacts := [], jobs := [],
    nextStreamId := 4, nextImageId := 8, nextJobId := 1 }

def c10Old : ImageRow :=
  { id := 7, stream_id := 3, product_id := "p1", name := "old", image_type := "mirrored",
    status := "ready", origin_product_url := none, origin_index_url := none, os := none,
    release := none, version := none, arch := none, subarch := none, label := none,
    kflavor := none, krel := none, build_id := some "20230101", meta := some [("k", .str "v")] }

def c10Art : ArtifactRow :=
  { image_id := 7, name := "root.tar", ftype := "root", relative_path := "s1/p1/old.tar",
    size := some 3, sha256 := some "xx", source_url := none }

def c10Db : DB :=
  { streams := [c2Stream], images := [c10Old], artifacts := [c10Art], jobs := [],
    nextStreamId := 4, nextImageId := 8, nextJobId := 1 }

def c10Fs : FS := [("root/s1/p1/old.tar", [1, 2, 3])]

def c1ErrImg : ImageRow :=
  { id := 1, stream_id := 1, product_id := "p1", name := "broken", image_type := "mirrored",
    status := "error", origin_product_url := none, origin_index_url := none, os := none,
    release := none, version := none, arch := none, subarch := none, label := none,
    kflavor := none, krel := none, build_id := none,
    meta := some [("error", .str "boom")] }

def c1ReadyImg : ImageRow :=
  { c1ErrImg with
    id := 2, product_id := "p2", status := "ready",
    meta := some [("versions", .obj [("20240101", .obj [("items", .obj [])])])] }

def c8Img : ImageRow :=
  { id := 1, stream_id := 1, product_id := "p1", name := "img", image_type := "mirrored",
    status := "ready", origin_product_url := none, origin_index_url := none, os := none,
    release := none, version := none, arch := none, subarch := none, label := none,
    kflavor := none, krel := none, build_id := some "20240101",
    meta := some [("versions", .obj [("20240101", .obj [("items", .obj [("root.tar",
      .obj [("path", .str "old"), ("size", .num 5), ("sha256", .str "aa")])])])])] }

def c8Art : ArtifactRow :=
  { image_id := 1, name := "root.tar", ftype := "root", relative_path := "new",
    size := some 0, sha256 := some "", source_url := none }

def c8Entry : Jobj := itemObj (dgetD (writeStreamProducts [c8Img] [c8Art]) "p1" .null)

def c8Items : Jobj :=
  itemObj (dgetD (itemObj (dgetD (itemObj (dgetD c8Entry "versions" .null))
    "20240101" .null)) "items" .null)

def c8Item : Jobj := itemObj (dgetD c8Items "root.tar" .null)

def c8WItem0 : Jobj := [("path", .str "old")]

def c8WItems : Jobj := [("root.tar", .obj c8WItem0)]

def c8WArt : ArtifactRow :=
  { image_id := 1, name := "root.tar", ftype := "root", relative_path := "new",
    size := some 7, sha256 := some "abc", source_url := none }

def c9Img : ImageRow :=
  { id := 9, stream_id := 3, product_id := "p9", name := "empty-meta",
    image_type := "mirrored", status := "ready", origin_product_url := none,
    origin_index_url := none, os := none, release := none, version := none, arch := none,
    subarch := none, label := none, kflavor := none, krel := none,
    build_id := some "20240101", meta := some [] }

def c9Art : ArtifactRow :=
  { image_id := 9, name := "root.tar", ftype := "root", relative_path := "s1/p9/root.tar",
    size := some 5, sha256 := some "aa", source_url := none }

def c9Db : DB :=
  { streams := [c2Stream], images := [c9Img], artifacts := [c9Art], jobs := [],
    nextStreamId := 4, nextImageId := 10, nextJobId := 1 }

/-! ## Theorems -/

@[simp] theorem alistGet_nil {β : Type} (key : String) :
    alistGet ([] : List (String × β)) key = none := rfl

theorem alistGet_cons {β : Type} (k : String) (v : β) (rest : List (String × β)) (key : String) :
    alistGet ((k, v) :: rest) key = if k = key then some v else alistGet rest key := rfl

@[simp] theorem alistGet_alistSet_self {β : Type} (l : List (String × β)) (key : String) (v : β) :
    alistGet (alistSet l key v) key = some v := by
  induction l with
  | nil => simp [alistSet, alistGet]
  | cons kv rest ih =>
    obtain ⟨k, w⟩ := kv
    by_cases h : k = key
    · simp [alistSet, alistGet, h]
    · simp [alistSet, alistGet, h, ih]

theorem alistGet_alistSet_ne {β : Type} (l : List (String × β)) (key key' : String) (v : β)
    (h : key ≠ key') : alistGet (alistSet l key v) key' = alistGet l key' := by
  induction l with
  | nil => simp [alistSet, alistGet, h]
  | cons kv rest ih =>
    obtain ⟨k, w⟩ := kv
    by_cases hk : k = key
    · subst hk
      simp [alistSet, alistGet, h, ih]
    · simp only [alistSet, if_neg hk]
      by_cases hk' : k = key'
      · simp [alistGet, hk']
      · simp [alistGet, hk', ih]

@[simp] theorem alistGet_alistDrop_self {β : Type} (l : List (String × β)) (key : String) :
    alistGet (alistDrop l key) key = none := by
  induction l with
  | nil => simp [alistDrop, alistGet]
  | cons kv rest ih =>
    obtain ⟨k, w⟩ := kv
    by_cases h : k = key
    · simpa [alistDrop, h] using ih
    · simpa [alistDrop, alistGet, h] using ih

theorem alistGet_alistDrop_ne {β : Type} (l : List (String × β)) (key key' : String)
    (h : key ≠ key') : alistGet (alistDrop l key) key' = alistGet l key' := by
  induction l with
  | nil => simp [alistDrop]
  | cons kv rest ih =>
    obtain ⟨k, w⟩ := kv
    by_cases hk : k = key
    · subst hk
      simpa [alistDrop, alistGet, h] using ih
    · by_cases hk' : k = key'
      · subst hk'
        simp [alistDrop, List.filter_cons, alistGet, hk]
      · simpa [alistDrop, List.filter_cons, alistGet, hk, hk'] using ih

theorem dsetdefault_get_of_mem (kvs : Jobj) (key : String) (v : Json)
    (h : alistMem kvs key = true) : dsetdefault kvs key v = kvs := by
  simp [dsetdefault, h]

theorem alistGet_append_left {β : Type} (l l' : List (String × β)) (key : String) (v : β)
    (h : alistGet l key = some v) : alistGet (l ++ l') key = some v := by
  induction l with
  | nil => simp [alistGet] at h
  | cons kv rest ih =>
    obtain ⟨k, w⟩ := kv
    by_cases hk : k = key
    · simpa [alistGet, hk] using h
    · simp only [alistGet, if_neg hk] at h ⊢
      exact ih h

theorem alistGet_dsetdefault (kvs : Jobj) (key key' : String) (v : Json)
    (h : alistGet kvs key' = some v) :
    alistGet (dsetdefault kvs key v) key' = some v ∨ dsetdefault kvs key v = kvs := by
  by_cases hm : alistMem kvs key = true
  · right; simp [dsetdefault, hm]
  · left
    simp only [dsetdefault, hm, if_neg, Bool.not_eq_true] at *
    exact alistGet_append_left kvs [(key, v)] key' v h

@[simp] theorem alistGet_safe_remove_self (fs : FS) (path : String) :
    alistGet (safe_remove fs path) path = none :=
  alistGet_alistDrop_self fs path

theorem alistGet_safe_remove_none (fs : FS) (path path' : String)
    (h : alistGet fs path' = none) : alistGet (safe_remove fs path) path' = none := by
  by_cases hp : path = path'
  · subst hp; simp
  · rw [show safe_remove fs path = alistDrop fs path from rfl,
      alistGet_alistDrop_ne fs path path' hp]
    exact h


@[simp] theorem alistGet_set_size_path (l : Jobj) (v : Json) :
    alistGet (alistSet l "size" v) "path" = alistGet l "path" :=
  alistGet_alistSet_ne l "size" "path" v (by decide)

@[simp] theorem alistGet_set_sha_path (l : Jobj) (v : Json) :
    alistGet (alistSet l "sha256" v) "path" = alistGet l "path" :=
  alistGet_alistSet_ne l "sha256" "path" v (by decide)

@[simp] theorem alistGet_set_size_sha (l : Jobj) (v : Json) :
    alistGet (alistSet l "size" v) "sha256" = alistGet l "sha256" :=
  alistGet_alistSet_ne l "size" "sha256" v (by decide)

@[simp] theorem alistGet_set_path_sha (l : Jobj) (v : Json) :
    alistGet (alistSet l "path" v) "sha256" = alistGet l "sha256" :=
  alistGet_alistSet_ne l "path" "sha256" v (by decide)

@[simp] theorem alistGet_set_sha_size (l : Jobj) (v : Json) :
    alistGet (alistSet l "sha256" v) "size" = alistGet l "size" :=
  alistGet_alistSet_ne l "sha256" "size" v (by decide)

@[simp] theorem alistGet_set_path_size (l : Jobj) (v : Json) :
    alistGet (alistSet l "path" v) "size" = alistGet l "size" :=
  alistGet_alistSet_ne l "path" "size" v (by decide)

theorem hashStep_foldl (chunks : List Bytes) (st : HashLoop) :
    chunks.foldl hashStep st =
      ⟨st.written ++ chunks.flatten, st.size + chunks.flatten.length, st.absorbed ++ chunks.flatten⟩ := by
  induction chunks generalizing st with
  | nil => simp
  | cons c cs ih =>
    simp [hashStep, ih, List.append_assoc, Nat.add_assoc]

/-- C5: for any sequence of body chunks received, `download_with_hash` writes
exactly their concatenation to the destination file and returns its length as
`size` and its SHA-256 hex digest as `sha256_hex`. -/
theorem download_with_hash_size_sha256 (chunks : List Bytes) (url destination : String)
    (fs : FS) :
    download_with_hash (fun _ => .body chunks none) url destination fs =
      (alistSet fs destination chunks.flatten,
        .ok (chunks.flatten.length, sha256Hex chunks.flatten)) := by
  simp [download_with_hash, hashStep_foldl]

/-- Sanity vector from scenario S1 of the specification: the digest of the
5-byte body `hello`. -/
theorem sha256Hex_hello :
    sha256Hex (strBytes "hello") =
      "2cf24dba5fb0a30e26e83b2ac5b9e29e1b161e5c1fa7425e73043362938b9824" := by
  decide

theorem resumeJob_of_running (j : MirrorJobRow) (h : j.status = "running") :
    resumeJob j =
      { j with
        status := "queued", message := some "Resumed after service restart",
        started_at := none, finished_at := none, progress := 0 } := by
  simp [resumeJob, h]

/-- C6 (amended): after startup recovery no job is `running`; every previously
`running` job is requeued with progress 0, cleared timestamps and the message
"Resumed after service restart"; every other job is untouched; the rest of the
database is untouched; and the worker is triggered. -/
theorem resume_pending_jobs_recovery (db : DB) :
    (resume_pending_jobs db).2 = true ∧
    (∀ j ∈ (resume_pending_jobs db).1.jobs, j.status ≠ "running") ∧
    (∀ i : Nat, (resume_pending_jobs db).1.jobs[i]? = (db.jobs[i]?).map resumeJob) ∧
    (∀ j : MirrorJobRow, j.status = "running" →
      resumeJob j =
        { j with
          status := "queued", message := some "Resumed after service restart",
          started_at := none, finished_at := none, progress := 0 }) ∧
    (∀ j : MirrorJobRow, j.status ≠ "running" → resumeJob j = j) ∧
    (resume_pending_jobs db).1.streams = db.streams ∧
    (resume_pending_jobs db).1.images = db.images ∧
    (resume_pending_jobs db).1.artifacts = db.artifacts := by
  refine ⟨rfl, ?_, ?_, ?_, ?_, rfl, rfl, rfl⟩
  · intro j hj
    simp only [resume_pending_jobs, List.mem_map] at hj
    obtain ⟨j0, _, rfl⟩ := hj
    by_cases h : j0.status = "running"
    · simp [resumeJob, h]
    · simp [resumeJob, h]
  · intro i
    simp [resume_pending_jobs, List.getElem?_map]
  · intro j h
    exact resumeJob_of_running j h
  · intro j h
    simp [resumeJob, h]

/-- C6 counterexample: after recovery the requeued job carries the message
`"Resumed after service restart"`, not the message `"resumed after restart"`
stated in the claim. -/
theorem resume_message_text_counterexample :
    (resume_pending_jobs c6Db).1.jobs.map (fun j => j.message) =
      [some "Resumed after service restart"] ∧
    some "Resumed after service restart" ≠ some "resumed after restart" := by
  constructor
  · rfl
  · decide

/-- C6 witness: the recovery theorem applied to a database holding one
`running` job. -/
theorem resume_pending_jobs_recovery_witness :
    c6RunningJob.status = "running" ∧
    resumeJob c6RunningJob =
      { c6RunningJob with
        status := "queued", message := some "Resumed after service restart",
        started_at := none, finished_at := none, progress := 0 } :=
  ⟨rfl, (resume_pending_jobs_recovery c6Db).2.2.2.1 c6RunningJob rfl⟩

theorem find?_append_of_none {α : Type} (l l' : List α) (p : α → Bool)
    (h : l.find? p = none) : (l ++ l').find? p = l'.find? p := by
  induction l with
  | nil => simp
  | cons x xs ih =>
    cases hp : p x with
    | true => simp [List.find?_cons, hp] at h
    | false =>
      simp only [List.cons_append, List.find?_cons, hp, cond_false] at h ⊢
      exact ih h

theorem queuedJobsFor_nil_of_no_active (jobs : List MirrorJobRow) (pid : String)
    (h : find_active_job jobs pid = none) : queuedJobsFor jobs pid = [] := by
  rw [find_active_job, List.find?_eq_none] at h
  rw [queuedJobsFor, List.filter_eq_nil_iff]
  intro j hj hq
  refine h j hj ?_
  simp only [Bool.and_eq_true, Bool.or_eq_true] at hq ⊢
  exact ⟨hq.1, Or.inl hq.2⟩

/-- C3: admission of a mirror request, per product.  A product with an Image
in `mirroring` is skipped with reason "already mirroring"; otherwise a product
with a `queued`/`running` MirrorJob is skipped with reason "already queued";
otherwise exactly one `queued` MirrorJob is created and the product is
enqueued.  Repeating the request without worker progress skips the product and
leaves exactly one queued job. -/
theorem mirror_intake_admission (db : DB) (url pid : String) :
    (∀ img, findMirroringImage db.images pid = some img →
      mirror_products_route db url [pid] =
        { db := db, result := .ok ([], [pid ++ " (already mirroring)"], []),
          committed := false, triggered := false }) ∧
    (findMirroringImage db.images pid = none →
      ∀ j, find_active_job db.jobs pid = some j →
        mirror_products_route db url [pid] =
          { db := db, result := .ok ([], [pid ++ " (already queued)"], []),
            committed := false, triggered := false }) ∧
    (findMirroringImage db.images pid = none →
      find_active_job db.jobs pid = none →
      (mirror_products_route db url [pid]).result = .ok ([pid], [], [(db.nextJobId, pid)]) ∧
      (mirror_products_route db url [pid]).db.jobs = db.jobs ++ [freshJob db url pid] ∧
      (mirror_products_route db url [pid]).db.images = db.images ∧
      (mirror_products_route db url [pid]).committed = true ∧
      (mirror_products_route db url [pid]).triggered = true ∧
      queuedJobsFor (mirror_products_route db url [pid]).db.jobs pid = [freshJob db url pid] ∧
      (mirror_products_route (mirror_products_route db url [pid]).db url [pid]).result =
        .ok ([], [pid ++ " (already queued)"], []) ∧
      (mirror_products_route (mirror_products_route db url [pid]).db url [pid]).db.jobs =
        (mirror_products_route db url [pid]).db.jobs) := by
  refine ⟨?_, ?_, ?_⟩
  · intro img hm
    simp [mirror_products_route, intakeStep, hm]
  · intro hm j hj
    simp [mirror_products_route, intakeStep, hm, hj]
  · intro hm hj
    have hroute : mirror_products_route db url [pid] =
        { db :=
            { db with jobs := db.jobs ++ [freshJob db url pid], nextJobId := db.nextJobId + 1 },
          result := .ok ([pid], [], [(db.nextJobId, pid)]),
          committed := true, triggered := true } := by
      simp [mirror_products_route, intakeStep, hm, hj, enqueue_job, freshJob]
    have hqueued : queuedJobsFor (db.jobs ++ [freshJob db url pid]) pid =
        [freshJob db url pid] := by
      have h0 : queuedJobsFor db.jobs pid = [] := queuedJobsFor_nil_of_no_active db.jobs pid hj
      rw [queuedJobsFor] at h0 ⊢
      rw [List.filter_append, h0]
      simp [freshJob]
    have hactive2 : find_active_job (db.jobs ++ [freshJob db url pid]) pid =
        some (freshJob db url pid) := by
      rw [find_active_job,
        find?_append_of_none db.jobs [freshJob db url pid] _ hj]
      simp [freshJob]
    refine ⟨by rw [hroute], by rw [hroute], by rw [hroute], by rw [hroute], by rw [hroute],
      ?_, ?_, ?_⟩
    · rw [hroute]
      exact hqueued
    · rw [hroute]
      simp [mirror_products_route, intakeStep, hm, hactive2]
    · rw [hroute]
      simp [mirror_products_route, intakeStep, hm, hactive2]

/-- C3 witness: a fresh database — one request enqueues exactly one queued
job, a second request for the same product is skipped as "already queued". -/
theorem mirror_intake_admission_witness :
    findMirroringImage c3Db.images "p1" = none ∧
    find_active_job c3Db.jobs "p1" = none ∧
    ((mirror_products_route c3Db "u" ["p1"]).result = .ok (["p1"], [], [(1, "p1")]) ∧
      (mirror_products_route c3Db "u" ["p1"]).db.jobs = c3Db.jobs ++ [freshJob c3Db "u" "p1"] ∧
      (mirror_products_route c3Db "u" ["p1"]).db.images = c3Db.images ∧
      (mirror_products_route c3Db "u" ["p1"]).committed = true ∧
      (mirror_products_route c3Db "u" ["p1"]).triggered = true ∧
      queuedJobsFor (mirror_products_route c3Db "u" ["p1"]).db.jobs "p1" =
        [freshJob c3Db "u" "p1"] ∧
      (mirror_products_route (mirror_products_route c3Db "u" ["p1"]).db "u" ["p1"]).result =
        .ok ([], ["p1" ++ " (already queued)"], []) ∧
      (mirror_products_route (mirror_products_route c3Db "u" ["p1"]).db "u" ["p1"]).db.jobs =
        (mirror_products_route c3Db "u" ["p1"]).db.jobs) :=
  ⟨rfl, rfl, (mirror_intake_admission c3Db "u" "p1").2.2 rfl rfl⟩

theorem intakeStep_counts (url : String) (pids : List String) (acc : IntakeAcc) :
    ((pids.foldl (intakeStep url) acc).enqueued.length +
        (pids.foldl (intakeStep url) acc).skipped.length) =
      acc.enqueued.length + acc.skipped.length + pids.length := by
  induction pids generalizing acc with
  | nil => simp
  | cons p ps ih =>
    rw [List.foldl_cons, ih]
    simp only [List.length_cons]
    have hstep : (intakeStep url acc p).enqueued.length + (intakeStep url acc p).skipped.length =
        acc.enqueued.length + acc.skipped.length + 1 := by
      rw [intakeStep]
      cases findMirroringImage acc.db.images p with
      | some img => (simp; omega)
      | none =>
        cases find_active_job acc.db.jobs p with
        | some j => (simp; omega)
        | none => (simp [enqueue_job]; omega)
    omega

/-- C4 (amended): the intake raises the client error exactly when the request
carried no products at all (so neither `enqueued` nor `skipped` has an entry);
a request whose products were all skipped succeeds with the skip list; and the
request commits and signals the worker exactly when at least one product was
enqueued. -/
theorem mirror_intake_client_error (db : DB) (url : String) (pids : List String) :
    ((mirror_products_route db url pids).result =
        .error "No products selected for mirroring" ↔ pids = []) ∧
    (∀ e, (mirror_products_route db url pids).result = .error e →
      e = "No products selected for mirroring") ∧
    (∀ enq skip jobs,
      (mirror_products_route db url pids).result = .ok (enq, skip, jobs) →
      (((mirror_products_route db url pids).committed = true) ↔ enq ≠ []) ∧
      (mirror_products_route db url pids).triggered =
        (mirror_products_route db url pids).committed) := by
  have hcount := intakeStep_counts url pids ⟨db, [], [], []⟩
  simp only [List.length_nil, Nat.zero_add] at hcount
  set acc := pids.foldl (intakeStep url) ⟨db, [], [], []⟩ with hacc
  have hinit : pids = [] → acc = ⟨db, [], [], []⟩ := by
    intro h
    rw [hacc, h, List.foldl_nil]
  by_cases hE : acc.enqueued.isEmpty
  · by_cases hS : acc.skipped.isEmpty
    · have he : acc.enqueued = [] := by simpa using hE
      have hs : acc.skipped = [] := by simpa using hS
      have hlen : pids = [] := by
        rw [he, hs] at hcount
        simp only [List.length_nil, Nat.add_zero, Nat.zero_add] at hcount
        exact List.length_eq_zero.mp hcount.symm
      have hroute : mirror_products_route db url pids =
          { db := db, result := .error "No products selected for mirroring",
            committed := false, triggered := false } := by
        simp [mirror_products_route, ← hacc, hE, hS]
      refine ⟨⟨fun _ => hlen, fun _ => by rw [hroute]⟩, ?_, ?_⟩
      · intro e hres
        rw [hroute] at hres
        injection hres with hmsg
        exact hmsg.symm
      · intro enq skip jobs hres
        rw [hroute] at hres
        exact absurd hres (by simp)
    · have hroute : mirror_products_route db url pids =
          { db := db, result := .ok (acc.enqueued, acc.skipped, acc.jobs),
            committed := false, triggered := false } := by
        simp [mirror_products_route, ← hacc, hE, hS]
      have hne : pids ≠ [] := by
        intro h
        rw [hinit h] at hS
        exact hS rfl
      refine ⟨⟨?_, fun h => absurd h hne⟩, ?_, ?_⟩
      · intro hres
        rw [hroute] at hres
        exact absurd hres (by simp)
      · intro e hres
        rw [hroute] at hres
        exact absurd hres (by simp)
      · intro enq skip jobs hres
        rw [hroute] at hres
        injection hres with hok
        have he : acc.enqueued = [] := by simpa using hE
        have henq : acc.enqueued = enq := by simpa using congrArg (fun t => t.1) hok
        have henq2 : enq = [] := henq.symm.trans he
        subst henq2
        simp [hroute]
  · have hroute : mirror_products_route db url pids =
        { db := acc.db, result := .ok (acc.enqueued, acc.skipped, acc.jobs),
          committed := true, triggered := true } := by
      simp [mirror_products_route, ← hacc, hE]
    have hne : pids ≠ [] := by
      intro h
      rw [hinit h] at hE
      exact hE rfl
    refine ⟨⟨?_, fun h => absurd h hne⟩, ?_, ?_⟩
    · intro hres
      rw [hroute] at hres
      exact absurd hres (by simp)
    · intro e hres
      rw [hroute] at hres
      exact absurd hres (by simp)
    · intro enq skip jobs hres
      rw [hroute] at hres
      injection hres with hok
      have henq : acc.enqueued = enq := by simpa using congrArg (fun t => t.1) hok
      have hneq : enq ≠ [] := by
        intro hnil
        rw [hnil] at henq
        rw [henq] at hE
        exact hE rfl
      simp [hroute, hneq]

/-- C4 counterexample: a request whose only product is skipped ("already
queued") succeeds with an empty `enqueued` list — the code does not raise the
client error the claim requires for the all-skipped case. -/
theorem mirror_intake_all_skipped_ok :
    (mirror_products_route c4Db "u" ["p1"]).result = .ok ([], ["p1 (already queued)"], []) ∧
    (∀ e, (mirror_products_route c4Db "u" ["p1"]).result ≠ .error e) := by
  have h : (mirror_products_route c4Db "u" ["p1"]).result =
      .ok ([], ["p1 (already queued)"], []) := rfl
  refine ⟨h, ?_⟩
  intro e hres
  rw [h] at hres
  exact absurd hres (by simp)

/-- C4 witness: on the all-skipped database the error characterisation and the
commit/trigger behaviour hold as the amended claim states. -/
theorem mirror_intake_client_error_witness :
    (mirror_products_route c4Db "u" ["p1"]).result =
      .ok ([], ["p1 (already queued)"], []) ∧
    (((mirror_products_route c4Db "u" ["p1"]).committed = true) ↔ ([] : List String) ≠ []) ∧
    (mirror_products_route c4Db "u" ["p1"]).triggered =
      (mirror_products_route c4Db "u" ["p1"]).committed :=
  ⟨rfl, (mirror_intake_client_error c4Db "u" ["p1"]).2.2 [] ["p1 (already queued)"] [] rfl⟩

theorem charListLt_trans (a : List Char) :
    ∀ b c, charListLt a b = true → charListLt b c = true → charListLt a c = true := by
  induction a with
  | nil =>
    intro b c h1 h2
    cases b with
    | nil => simp [charListLt] at h1
    | cons cb bs =>
      cases c with
      | nil => simp [charListLt] at h2
      | cons cc cs => simp [charListLt]
  | cons ca as ih =>
    intro b c h1 h2
    cases b with
    | nil => simp [charListLt] at h1
    | cons cb bs =>
      cases c with
      | nil => simp [charListLt] at h2
      | cons cc cs =>
        simp only [charListLt] at h1 h2 ⊢
        by_cases hab : ca < cb
        · by_cases hbc : cb < cc
          · rw [if_pos (lt_trans hab hbc)]
          · by_cases hcb : cc < cb
            · rw [if_neg hbc, if_pos hcb] at h2
              exact absurd h2 (by simp)
            · have hbceq : cb = cc := le_antisymm (not_lt.mp hcb) (not_lt.mp hbc)
              rw [if_pos (hbceq ▸ hab)]
        · by_cases hba : cb < ca
          · rw [if_neg hab, if_pos hba] at h1
            exact absurd h1 (by simp)
          · have habeq : ca = cb := le_antisymm (not_lt.mp hba) (not_lt.mp hab)
            rw [if_neg hab, if_neg hba] at h1
            by_cases hbc : cb < cc
            · rw [if_pos (habeq ▸ hbc)]
            · by_cases hcb : cc < cb
              · rw [if_neg hbc, if_pos hcb] at h2
                exact absurd h2 (by simp)
              · have hbceq : cb = cc := le_antisymm (not_lt.mp hcb) (not_lt.mp hbc)
                rw [if_neg hbc, if_neg hcb] at h2
                have hik := ih bs cs h1 h2
                rw [if_neg (hbceq ▸ hab), if_neg (hbceq ▸ hba)]
                exact hik

theorem charListLt_trichotomy (a : List Char) :
    ∀ b, a = b ∨ charListLt a b = true ∨ charListLt b a = true := by
  induction a with
  | nil =>
    intro b
    cases b with
    | nil => left; rfl
    | cons cb bs => right; left; simp [charListLt]
  | cons ca as ih =>
    intro b
    cases b with
    | nil => right; right; simp [charListLt]
    | cons cb bs =>
      rcases lt_trichotomy ca cb with hlt | heq | hgt
      · right; left
        simp [charListLt, hlt]
      · subst heq
        rcases ih bs with heq2 | h | h
        · left; rw [heq2]
        · right; left
          simp [charListLt, lt_irrefl, h]
        · right; right
          simp [charListLt, lt_irrefl, h]
      · right; right
        simp [charListLt, hgt]

theorem strLt_trans (a b c : String) (h1 : strLt a b = true) (h2 : strLt b c = true) :
    strLt a c = true :=
  charListLt_trans a.data b.data c.data h1 h2

theorem strLt_trichotomy (a b : String) : a = b ∨ strLt a b = true ∨ strLt b a = true := by
  rcases charListLt_trichotomy a.data b.data with h | h | h
  · left
    cases a with
    | mk da =>
      cases b with
      | mk db => exact congrArg String.mk h
  · right; left; exact h
  · right; right; exact h

/-- `a` is at most `b` in the comparison `max()` uses. -/
theorem strLeOr_trans (a b c : String) (h1 : a = b ∨ strLt a b = true)
    (h2 : b = c ∨ strLt b c = true) : a = c ∨ strLt a c = true := by
  rcases h1 with rfl | h1
  · exact h2
  · rcases h2 with rfl | h2
    · right; exact h1
    · right; exact strLt_trans a b c h1 h2

theorem foldl_maxKey_spec (rest : Jobj) (k : String) :
    (rest.foldl (fun acc kv => if strLt acc kv.1 then kv.1 else acc) k = k ∨
      ∃ kv ∈ rest, kv.1 = rest.foldl (fun acc kv => if strLt acc kv.1 then kv.1 else acc) k) ∧
    (k = rest.foldl (fun acc kv => if strLt acc kv.1 then kv.1 else acc) k ∨
      strLt k (rest.foldl (fun acc kv => if strLt acc kv.1 then kv.1 else acc) k) = true) ∧
    ∀ kv ∈ rest, kv.1 = rest.foldl (fun acc kv => if strLt acc kv.1 then kv.1 else acc) k ∨
      strLt kv.1 (rest.foldl (fun acc kv => if strLt acc kv.1 then kv.1 else acc) k) = true := by
  induction rest generalizing k with
  | nil => simp
  | cons kv tl ih =>
    obtain ⟨hmem, hinit, hall⟩ := ih (if strLt k kv.1 then kv.1 else k)
    simp only [List.foldl_cons]
    have hstep : (k = (if strLt k kv.1 then kv.1 else k) ∨
        strLt k (if strLt k kv.1 then kv.1 else k) = true) := by
      by_cases hk : strLt k kv.1 = true
      · rw [if_pos hk]
        right; exact hk
      · rw [if_neg hk]
        left; rfl
    have hkv : (kv.1 = (if strLt k kv.1 then kv.1 else k) ∨
        strLt kv.1 (if strLt k kv.1 then kv.1 else k) = true) := by
      by_cases hk : strLt k kv.1 = true
      · rw [if_pos hk]
        left; rfl
      · rw [if_neg hk]
        rcases strLt_trichotomy k kv.1 with heq | hlt | hgt
        · left; exact heq.symm
        · exact absurd hlt hk
        · right; exact hgt
    refine ⟨?_, ?_, ?_⟩
    · rcases hmem with hmem | ⟨x, hx, hx1⟩
      · by_cases hk : strLt k kv.1 = true
        · right
          refine ⟨kv, List.mem_cons_self kv tl, ?_⟩
          rw [hmem, if_pos hk]
        · left
          rw [hmem, if_neg hk]
      · right
        exact ⟨x, List.mem_cons_of_mem kv hx, hx1⟩
    · exact strLeOr_trans _ _ _ hstep hinit
    · intro x hx
      rcases List.mem_cons.mp hx with hx | hx
      · subst hx
        exact strLeOr_trans _ _ _ hkv hinit
      · exact hall x hx

theorem maxKey_spec (vs : Jobj) (h : vs ≠ []) :
    maxKey vs ∈ vs.map Prod.fst ∧
      ∀ kv ∈ vs, kv.1 = maxKey vs ∨ strLt kv.1 (maxKey vs) = true := by
  match vs, h with
  | (k, v) :: rest, _ =>
    obtain ⟨hmem, hinit, hall⟩ := foldl_maxKey_spec rest k
    constructor
    · rw [maxKey]
      rcases hmem with hmem | ⟨x, hx, hx1⟩
      · rw [hmem]
        exact List.mem_map.mpr ⟨(k, v), List.mem_cons_self _ _, rfl⟩
      · exact List.mem_map.mpr ⟨x, List.mem_cons_of_mem _ hx, hx1⟩
    · intro kv hkv
      rw [maxKey]
      rcases List.mem_cons.mp hkv with hkv | hkv
      · rw [hkv]
        exact hinit
      · exact hall kv hkv

theorem alistGet_isSome_of_mem_keys {β : Type} (l : List (String × β)) (k : String)
    (h : k ∈ l.map Prod.fst) : (alistGet l k).isSome = true := by
  induction l with
  | nil => simp at h
  | cons kv rest ih =>
    by_cases he : kv.1 = k
    · obtain ⟨k0, v0⟩ := kv
      simp only [alistGet]
      rw [if_pos he]
      rfl
    · simp only [List.map_cons, List.mem_cons] at h
      rcases h with h | h
      · exact absurd h.symm he
      · obtain ⟨k0, v0⟩ := kv
        simp only [alistGet] at he ⊢
        rw [if_neg he]
        exact ih h

theorem mem_updateImage_append (images : List ImageRow) (img img2 : ImageRow)
    (h : img2.id = img.id) : img2 ∈ updateImage (images ++ [img]) img2 := by
  unfold updateImage
  rw [List.map_append]
  refine List.mem_append_right _ ?_
  simp [h]

/-- Whatever the download outcome, `_materialise_product` leaves an Image row
for the product whose `build_id` is the chosen version key. -/
theorem materialise_creates_image (ctx : MirrorCtx) (db0 : DB) (fs0 : FS)
    (indexUrl rootBase : String) (stream : StreamRow) (streamEntry : Jobj) (pid : String)
    (productMeta : Jobj) (vk : String) (vd : Jobj) (rebuild : Bool) :
    ∃ img ∈ (materialise_product ctx db0 fs0 indexUrl rootBase stream streamEntry pid
        productMeta vk vd rebuild).db.images,
      img.product_id = pid ∧ img.build_id = some vk := by
  cases hdl : downloadItems ctx rootBase vk (remove_existing_image ctx db0 fs0 stream.id pid).2
      (mirrorEntryCopy productMeta vk vd) [] (jgetObjOrMissing vd "items") with
  | ok fs2 ec rows =>
    simp only [materialise_product, hdl]
    exact ⟨_, mem_updateImage_append _ _ _ rfl, rfl, rfl⟩
  | fail fs2 ec msg =>
    simp only [materialise_product, hdl]
    exact ⟨_, mem_updateImage_append _ _ _ rfl, rfl, rfl⟩

/-- C7: version selection reads `products[product_id].versions` and fails with
`MirrorError("No versions available")` when it is missing or empty; otherwise
it picks the lexicographically greatest key (which is present in the dict),
and the Image created by the engine carries that key as `build_id`. -/
theorem latest_version_selection :
    (∀ vs : Jobj, vs = [] → latest_version vs = .error "No versions available") ∧
    (∀ vs : Jobj, vs ≠ [] →
      latest_version vs = .ok (maxKey vs, dgetD vs (maxKey vs) .null) ∧
      maxKey vs ∈ vs.map Prod.fst ∧
      (∀ kv ∈ vs, kv.1 = maxKey vs ∨ strLt kv.1 (maxKey vs) = true) ∧
      (alistGet vs (maxKey vs)).isSome = true) ∧
    (∀ (ctx : MirrorCtx) (db0 : DB) (fs0 : FS) (indexUrl pid : String)
        (availableStreams : Jobj) (rootBase : String) (rebuild : Bool) (sid : String)
        (streamEntry : Jobj) (payload : Jobj) (pmo : Jobj) (vk : String) (vd : Jobj),
      find_stream_for_product pid availableStreams = .ok (sid, streamEntry) →
      ctx.fetchJson (ctx.urljoin rootBase (strGetD streamEntry "path" "")) = .ok payload →
      dgetD (jgetObjOrMissing payload "products") pid .null = Json.obj pmo →
      jtruthy (Json.obj pmo) = true →
      (jgetObjOrMissing pmo "versions" = [] →
        (mirror_single_product ctx db0 fs0 indexUrl pid availableStreams rootBase
            rebuild).result = .error "No versions available") ∧
      (latest_version (jgetObjOrMissing pmo "versions") = .ok (vk, Json.obj vd) →
        jtruthy (Json.obj vd) = true →
        vk = maxKey (jgetObjOrMissing pmo "versions") ∧
        ∃ img ∈ (mirror_single_product ctx db0 fs0 indexUrl pid availableStreams rootBase
            rebuild).db.images,
          img.product_id = pid ∧ img.build_id = some vk)) := by
  refine ⟨?_, ?_, ?_⟩
  · intro vs h
    rw [h, latest_version]
  · intro vs h
    obtain ⟨hmem, hall⟩ := maxKey_spec vs h
    refine ⟨?_, hmem, hall, alistGet_isSome_of_mem_keys vs _ hmem⟩
    match vs, h with
    | kv :: rest, _ => rfl
  · intro ctx db0 fs0 indexUrl pid availableStreams rootBase rebuild sid streamEntry payload
      pmo vk vd hfs hpj hpm htr
    constructor
    · intro hve
      simp [mirror_single_product, hfs, hpj, hpm, htr, hve, latest_version]
    · intro hlv htv
      have hvs : jgetObjOrMissing pmo "versions" ≠ [] := by
        intro h0
        rw [h0, latest_version] at hlv
        exact absurd hlv (by simp)
      have hvk : vk = maxKey (jgetObjOrMissing pmo "versions") := by
        have heq : latest_version (jgetObjOrMissing pmo "versions") =
            .ok (maxKey (jgetObjOrMissing pmo "versions"),
              dgetD (jgetObjOrMissing pmo "versions")
                (maxKey (jgetObjOrMissing pmo "versions")) .null) := by
          match h : jgetObjOrMissing pmo "versions", hvs with
          | kv :: rest, _ => rfl
        rw [heq] at hlv
        injection hlv with hok
        exact (congrArg (fun t => t.1) hok).symm |>.trans rfl
      refine ⟨hvk, ?_⟩
      have hms : mirror_single_product ctx db0 fs0 indexUrl pid availableStreams rootBase
          rebuild = materialise_product ctx
            (get_or_create_stream db0 sid streamEntry indexUrl).1 fs0 indexUrl rootBase
            (get_or_create_stream db0 sid streamEntry indexUrl).2 streamEntry pid pmo vk vd
            rebuild := by
        simp [mirror_single_product, hfs, hpj, hpm, htr, hlv, htv]
      rw [hms]
      exact materialise_creates_image ctx _ fs0 indexUrl rootBase _ streamEntry pid pmo vk vd
        rebuild

/-- C7 witness: a two-version upstream product — the engine selects
`20240202` and the created Image has that `build_id`. -/
theorem latest_version_selection_witness :
    (latest_version c7Versions =
        .ok (maxKey c7Versions, dgetD c7Versions (maxKey c7Versions) .null) ∧
      maxKey c7Versions ∈ c7Versions.map Prod.fst ∧
      (∀ kv ∈ c7Versions, kv.1 = maxKey c7Versions ∨ strLt kv.1 (maxKey c7Versions) = true) ∧
      (alistGet c7Versions (maxKey c7Versions)).isSome = true) ∧
    ("20240202" = maxKey (jgetObjOrMissing c7Pm "versions") ∧
      ∃ img ∈ (mirror_single_product c7Ctx c7Db [] "idx" "p1" c7Streams "base/"
          true).db.images,
        img.product_id = "p1" ∧ img.build_id = some "20240202") :=
  ⟨latest_version_selection.2.1 c7Versions (by simp [c7Versions]),
    (latest_version_selection.2.2 c7Ctx c7Db [] "idx" "p1" c7Streams "base/" true "s1"
        c7StreamEntry c7Payload c7Pm "20240202" c7Vd rfl rfl rfl rfl).2 rfl rfl⟩

theorem remove_existing_image_nextImageId (ctx : MirrorCtx) (db : DB) (fs : FS)
    (sid : Nat) (pid : String) :
    (remove_existing_image ctx db fs sid pid).1.nextImageId = db.nextImageId := by
  rw [remove_existing_image]
  cases db.images.find? (fun i => i.stream_id == sid && i.product_id == pid) with
  | none => rfl
  | some ex => rfl

theorem remove_existing_image_artifacts_sub (ctx : MirrorCtx) (db : DB) (fs : FS)
    (sid : Nat) (pid : String) (a : ArtifactRow)
    (ha : a ∈ (remove_existing_image ctx db fs sid pid).1.artifacts) : a ∈ db.artifacts := by
  rw [remove_existing_image] at ha
  cases hfind : db.images.find? (fun i => i.stream_id == sid && i.product_id == pid) with
  | none =>
    rw [hfind] at ha
    exact ha
  | some ex =>
    rw [hfind] at ha
    exact List.mem_of_mem_filter ha

/-- Running the item loop against a prefix of complete downloads followed by a
failing item produces the `MirrorError` with the partial file already removed
from disk. -/
theorem downloadItems_fail (ctx : MirrorCtx) (rootBase vk : String)
    (pre : List (String × Json)) (failName : String) (failMeta : Json)
    (rest : List (String × Json)) (fp e : String)
    (hpre : ∀ it ∈ pre, itemDownloadOk ctx rootBase it)
    (hfp : pathOf failMeta = some fp)
    (hfail : downloadFails ctx rootBase fp e) :
    ∀ (fs : FS) (ec : Jobj) (rows : List ArtifactRow), ∃ fsF ecF,
      downloadItems ctx rootBase vk fs ec rows (pre ++ (failName, failMeta) :: rest) =
        .fail fsF ecF (downloadFailMsg fp e) ∧
      alistGet fsF (joinPath ctx.storageRoot fp) = none := by
  induction pre with
  | nil =>
    intro fs ec rows
    rcases hfail with hf | ⟨chunks, hf⟩
    · refine ⟨safe_remove fs (joinPath ctx.storageRoot fp),
        alistSet ec "status_detail"
          (.str ("Failed to download " ++ failName ++ ": " ++ e)),
        ?_, alistGet_safe_remove_self _ _⟩
      simp only [List.nil_append, downloadItems, hfp, download_with_hash, hf]
    · refine ⟨safe_remove (alistSet fs (joinPath ctx.storageRoot fp)
          ((chunks.foldl hashStep ⟨[], 0, []⟩).written)) (joinPath ctx.storageRoot fp),
        alistSet ec "status_detail"
          (.str ("Failed to download " ++ failName ++ ": " ++ e)),
        ?_, alistGet_safe_remove_self _ _⟩
      simp only [List.nil_append, downloadItems, hfp, download_with_hash, hf]
  | cons it pre ih =>
    intro fs ec rows
    obtain ⟨p, chunks, hp, hfetch⟩ := hpre it (List.mem_cons_self it pre)
    obtain ⟨n, m⟩ := it
    simp only [List.cons_append, downloadItems, hp, download_with_hash, hfetch]
    exact ih (fun x hx => hpre x (List.mem_cons_of_mem _ hx)) _ _ _

/-- C2: when downloading an item fails, the partial file at the item's
destination is removed, the run's Image is committed in status `error` with
`meta.error` holding the failure message and no `status_detail`, no Artifact
rows from this run are committed, the tree is republished, and the
`MirrorError` is propagated to the caller. -/
theorem mirror_download_failure (ctx : MirrorCtx) (db0 : DB) (fs0 : FS)
    (indexUrl rootBase : String) (stream : StreamRow) (streamEntry : Jobj) (pid : String)
    (productMeta : Jobj) (vk : String) (vd : Jobj)
    (pre : List (String × Json)) (failName : String) (failMeta : Json)
    (rest : List (String × Json)) (fp e : String)
    (hitems : jgetObjOrMissing vd "items" = pre ++ (failName, failMeta) :: rest)
    (hpre : ∀ it ∈ pre, itemDownloadOk ctx rootBase it)
    (hfp : pathOf failMeta = some fp)
    (hfail : downloadFails ctx rootBase fp e)
    (hfresh : ∀ a ∈ db0.artifacts, a.image_id ≠ db0.nextImageId) :
    (materialise_product ctx db0 fs0 indexUrl rootBase stream streamEntry pid productMeta
        vk vd true).result = .error (downloadFailMsg fp e) ∧
    alistGet (materialise_product ctx db0 fs0 indexUrl rootBase stream streamEntry pid
        productMeta vk vd true).fs (joinPath ctx.storageRoot fp) = none ∧
    (∃ img ∈ (materialise_product ctx db0 fs0 indexUrl rootBase stream streamEntry pid
        productMeta vk vd true).db.images,
      img.id = db0.nextImageId ∧ img.product_id = pid ∧ img.status = "error" ∧
      ∃ m, img.meta = some m ∧
        alistGet m "error" = some (.str (downloadFailMsg fp e)) ∧
        alistGet m "status_detail" = none) ∧
    (∀ a ∈ (materialise_product ctx db0 fs0 indexUrl rootBase stream streamEntry pid
        productMeta vk vd true).db.artifacts, a.image_id ≠ db0.nextImageId) ∧
    (materialise_product ctx db0 fs0 indexUrl rootBase stream streamEntry pid productMeta
        vk vd true).rebuilt = true := by
  obtain ⟨fsF, ecF, hdl, hfs⟩ := downloadItems_fail ctx rootBase vk pre failName failMeta
    rest fp e hpre hfp hfail (remove_existing_image ctx db0 fs0 stream.id pid).2
    (mirrorEntryCopy productMeta vk vd) []
  rw [← hitems] at hdl
  refine ⟨?_, ?_, ?_, ?_, ?_⟩
  · simp only [materialise_product, hdl]
  · simp only [materialise_product, hdl]
    exact hfs
  · simp only [materialise_product, hdl]
    refine ⟨_, mem_updateImage_append _ _ _ rfl, ?_, rfl, rfl, _, rfl, ?_, ?_⟩
    · exact remove_existing_image_nextImageId ctx db0 fs0 stream.id pid
    · exact alistGet_alistSet_self _ _ _
    · rw [alistGet_alistSet_ne _ "error" "status_detail" _ (by decide)]
      exact alistGet_alistDrop_self _ _
  · simp only [materialise_product, hdl]
    intro a ha
    have ha0 : a ∈ db0.artifacts :=
      remove_existing_image_artifacts_sub ctx db0 fs0 stream.id pid a ha
    exact hfresh a ha0
  · simp only [materialise_product, hdl]

/-- C2 witness: a one-item product whose download dies mid-stream — the run
ends in `error` with `meta.error` set, the partial file removed, no Artifact
rows, the tree republished and the error propagated. -/
theorem mirror_download_failure_witness :
    (materialise_product c2Ctx c2Db [] "idx" "base/" c2Stream [] "p1" c2Pm "20240101"
        c2Vd true).result = .error (downloadFailMsg "s1/p1/root.tar" "boom") ∧
    alistGet (materialise_product c2Ctx c2Db [] "idx" "base/" c2Stream [] "p1" c2Pm
        "20240101" c2Vd true).fs (joinPath c2Ctx.storageRoot "s1/p1/root.tar") = none ∧
    (∃ img ∈ (materialise_product c2Ctx c2Db [] "idx" "base/" c2Stream [] "p1" c2Pm
        "20240101" c2Vd true).db.images,
      img.id = c2Db.nextImageId ∧ img.product_id = "p1" ∧ img.status = "error" ∧
      ∃ m, img.meta = some m ∧
        alistGet m "error" = some (.str (downloadFailMsg "s1/p1/root.tar" "boom")) ∧
        alistGet m "status_detail" = none) ∧
    (∀ a ∈ (materialise_product c2Ctx c2Db [] "idx" "base/" c2Stream [] "p1" c2Pm
        "20240101" c2Vd true).db.artifacts, a.image_id ≠ c2Db.nextImageId) ∧
    (materialise_product c2Ctx c2Db [] "idx" "base/" c2Stream [] "p1" c2Pm "20240101"
        c2Vd true).rebuilt = true :=
  mirror_download_failure c2Ctx c2Db [] "idx" "base/" c2Stream [] "p1" c2Pm "20240101"
    c2Vd [] "root.tar" c2FailMeta [] "s1/p1/root.tar" "boom" rfl (by simp) rfl
    (Or.inr ⟨[[104, 101]], rfl⟩) (by simp [c2Db])

theorem alistGet_foldl_safe_remove_none (arts : List ArtifactRow) (root : String)
    (fs : FS) (k : String) (h : alistGet fs k = none) :
    alistGet (arts.foldl (fun acc a => safe_remove acc (joinPath root a.relative_path)) fs) k
      = none := by
  induction arts generalizing fs with
  | nil => exact h
  | cons b rest ih =>
    rw [List.foldl_cons]
    exact ih _ (alistGet_safe_remove_none _ _ _ h)

theorem alistGet_foldl_safe_remove_mem (arts : List ArtifactRow) (root : String)
    (fs : FS) (a : ArtifactRow) (ha : a ∈ arts) :
    alistGet (arts.foldl (fun acc a => safe_remove acc (joinPath root a.relative_path)) fs)
      (joinPath root a.relative_path) = none := by
  induction arts generalizing fs with
  | nil => simp at ha
  | cons b rest ih =>
    rw [List.foldl_cons]
    rcases List.mem_cons.mp ha with rfl | ha
    · exact alistGet_foldl_safe_remove_none rest root _ _ (alistGet_safe_remove_self _ _)
    · exact ih _ ha

theorem remove_existing_image_eq (ctx : MirrorCtx) (db : DB) (fs : FS) (sid : Nat)
    (pid : String) (old : ImageRow)
    (hfind : db.images.find? (fun i => i.stream_id == sid && i.product_id == pid) = some old) :
    remove_existing_image ctx db fs sid pid =
      ({ db with
          images := db.images.filter (fun i => i.id ≠ old.id),
          artifacts := db.artifacts.filter (fun a => a.image_id ≠ old.id) },
        (db.artifacts.filter (fun a => a.image_id == old.id)).foldl
          (fun acc a => safe_remove acc (joinPath ctx.storageRoot a.relative_path)) fs) := by
  rw [remove_existing_image, hfind]

/-- C10: re-mirroring a product deletes the existing Image, its Artifact rows
and their on-disk files before any download of the new version begins (the
first component below is the state every later step runs from), and a failed
re-mirror does not undo the eviction: the product ends with exactly one Image,
the new one in status `error`, and no Artifact rows of either generation. -/
theorem remirror_evicts_predecessor (ctx : MirrorCtx) (db0 : DB) (fs0 : FS)
    (indexUrl rootBase : String) (stream : StreamRow) (streamEntry : Jobj) (pid : String)
    (productMeta : Jobj) (vk : String) (vd : Jobj) (old : ImageRow)
    (hfind : db0.images.find?
      (fun i => i.stream_id == stream.id && i.product_id == pid) = some old) :
    ((∀ i ∈ (remove_existing_image ctx db0 fs0 stream.id pid).1.images, i.id ≠ old.id) ∧
      (∀ a ∈ (remove_existing_image ctx db0 fs0 stream.id pid).1.artifacts,
        a.image_id ≠ old.id) ∧
      (∀ a ∈ db0.artifacts, a.image_id = old.id →
        alistGet (remove_existing_image ctx db0 fs0 stream.id pid).2
          (joinPath ctx.storageRoot a.relative_path) = none)) ∧
    (∀ (pre : List (String × Json)) (failName : String) (failMeta : Json)
        (rest : List (String × Json)) (fp e : String),
      jgetObjOrMissing vd "items" = pre ++ (failName, failMeta) :: rest →
      (∀ it ∈ pre, itemDownloadOk ctx rootBase it) →
      pathOf failMeta = some fp →
      downloadFails ctx rootBase fp e →
      (∀ i ∈ db0.images, i.stream_id = stream.id → i.product_id = pid → i = old) →
      (∀ i ∈ db0.images, i.id ≠ db0.nextImageId) →
      (∀ a ∈ db0.artifacts, a.image_id ≠ db0.nextImageId) →
      (∃ imgE,
        (materialise_product ctx db0 fs0 indexUrl rootBase stream streamEntry pid
            productMeta vk vd true).db.images.filter
          (fun i => i.stream_id == stream.id && i.product_id == pid) = [imgE] ∧
        imgE.id = db0.nextImageId ∧ imgE.status = "error") ∧
      (∀ i ∈ (materialise_product ctx db0 fs0 indexUrl rootBase stream streamEntry pid
          productMeta vk vd true).db.images, i.id ≠ old.id) ∧
      (∀ a ∈ (materialise_product ctx db0 fs0 indexUrl rootBase stream streamEntry pid
          productMeta vk vd true).db.artifacts,
        a.image_id ≠ old.id ∧ a.image_id ≠ db0.nextImageId)) := by
  have hold_mem : old ∈ db0.images := List.mem_of_find?_eq_some hfind
  have hrm := remove_existing_image_eq ctx db0 fs0 stream.id pid old hfind
  constructor
  · refine ⟨?_, ?_, ?_⟩
    · intro i hi
      rw [hrm] at hi
      simp only [List.mem_filter, decide_eq_true_eq] at hi
      exact hi.2
    · intro a ha
      rw [hrm] at ha
      simp only [List.mem_filter, decide_eq_true_eq] at ha
      exact ha.2
    · intro a ha haid
      rw [hrm]
      refine alistGet_foldl_safe_remove_mem _ _ _ _ ?_
      simp only [List.mem_filter, beq_iff_eq]
      exact ⟨ha, by simp [haid]⟩
  · intro pre failName failMeta rest fp e hitems hpre hfp hfail huniq hfreshI hfreshA
    have hold_fresh : old.id ≠ db0.nextImageId := hfreshI old hold_mem
    obtain ⟨fsF, ecF, hdl, hfs⟩ := downloadItems_fail ctx rootBase vk pre failName failMeta
      rest fp e hpre hfp hfail (remove_existing_image ctx db0 fs0 stream.id pid).2
      (mirrorEntryCopy productMeta vk vd) []
    rw [← hitems] at hdl
    set rm := remove_existing_image ctx db0 fs0 stream.id pid with hrmset
    set imgM := mirrorImageRow ctx rm.1.nextImageId indexUrl rootBase stream streamEntry pid
      productMeta vk vd with himgM
    set imgErr : ImageRow :=
      { imgM with
        status := "error",
        meta := some (alistSet (alistDrop ecF "status_detail") "error"
          (.str (downloadFailMsg fp e))) } with himgErr
    have hnext : rm.1.nextImageId = db0.nextImageId := by
      rw [hrmset]
      exact remove_existing_image_nextImageId ctx db0 fs0 stream.id pid
    have himgErrId : imgErr.id = db0.nextImageId := by
      simp only [himgErr, himgM, mirrorImageRow]
      exact hnext
    have hmem0 : ∀ i ∈ rm.1.images, i ∈ db0.images ∧ i.id ≠ old.id := by
      intro i hi
      rw [hrm] at hi
      simp only [List.mem_filter, decide_eq_true_eq] at hi
      exact hi
    have himages : (materialise_product ctx db0 fs0 indexUrl rootBase stream streamEntry pid
        productMeta vk vd true).db.images = updateImage (rm.1.images ++ [imgM]) imgErr := by
      rw [himgErr, himgM, hrmset]
      simp only [materialise_product, hdl]
    have hartifacts : (materialise_product ctx db0 fs0 indexUrl rootBase stream streamEntry
        pid productMeta vk vd true).db.artifacts = rm.1.artifacts := by
      rw [hrmset]
      simp only [materialise_product, hdl]
    have hm1 : List.map (fun i => if i.id = imgErr.id then imgErr else i) rm.1.images =
        rm.1.images := by
      refine (List.map_congr_left ?_).trans (List.map_id _)
      intro i hi
      have hne : i.id ≠ imgErr.id := by
        rw [himgErrId]
        exact hfreshI i (hmem0 i hi).1
      rw [if_neg hne]
      rfl
    have hupdate : updateImage (rm.1.images ++ [imgM]) imgErr = rm.1.images ++ [imgErr] := by
      rw [updateImage, List.map_append, hm1]
      congr 1
      simp only [List.map_cons, List.map_nil]
      congr 1
    refine ⟨?_, ?_, ?_⟩
    · refine ⟨imgErr, ?_, himgErrId, rfl⟩
      rw [himages, hupdate, List.filter_append]
      have hfnil : rm.1.images.filter
          (fun i => i.stream_id == stream.id && i.product_id == pid) = [] := by
        rw [List.filter_eq_nil_iff]
        intro i hi hP
        simp only [Bool.and_eq_true, beq_iff_eq] at hP
        obtain ⟨hi0, hine⟩ := hmem0 i hi
        exact hine (congrArg ImageRow.id (huniq i hi0 hP.1 hP.2))
      rw [hfnil]
      simp [himgErr, himgM, mirrorImageRow]
    · intro i hi
      rw [himages, hupdate] at hi
      rcases List.mem_append.mp hi with hi | hi
      · exact (hmem0 i hi).2
      · rw [List.mem_singleton.mp hi, himgErrId]
        exact Ne.symm hold_fresh
    · intro a ha
      rw [hartifacts] at ha
      have ha0 : a ∈ db0.artifacts := by
        rw [hrmset] at ha
        exact remove_existing_image_artifacts_sub ctx db0 fs0 stream.id pid a ha
      have hane : a.image_id ≠ old.id := by
        rw [hrm] at ha
        simp only [List.mem_filter, decide_eq_true_eq] at ha
        exact ha.2
      exact ⟨hane, hfreshA a ha0⟩

/-- C10 witness: a ready predecessor with one artifact file is evicted (file
removed) and a failing re-mirror leaves a single `error` Image with no
Artifact rows. -/
theorem remirror_evicts_predecessor_witness :
    (∀ a ∈ c10Db.artifacts, a.image_id = c10Old.id →
      alistGet (remove_existing_image c2Ctx c10Db c10Fs c2Stream.id "p1").2
        (joinPath c2Ctx.storageRoot a.relative_path) = none) ∧
    (∃ imgE,
      (materialise_product c2Ctx c10Db c10Fs "idx" "base/" c2Stream [] "p1" c2Pm
          "20240101" c2Vd true).db.images.filter
        (fun i => i.stream_id == c2Stream.id && i.product_id == "p1") = [imgE] ∧
      imgE.id = c10Db.nextImageId ∧ imgE.status = "error") ∧
    (∀ i ∈ (materialise_product c2Ctx c10Db c10Fs "idx" "base/" c2Stream [] "p1" c2Pm
        "20240101" c2Vd true).db.images, i.id ≠ c10Old.id) ∧
    (∀ a ∈ (materialise_product c2Ctx c10Db c10Fs "idx" "base/" c2Stream [] "p1" c2Pm
        "20240101" c2Vd true).db.artifacts,
      a.image_id ≠ c10Old.id ∧ a.image_id ≠ c10Db.nextImageId) :=
  ⟨(remirror_evicts_predecessor c2Ctx c10Db c10Fs "idx" "base/" c2Stream [] "p1" c2Pm
      "20240101" c2Vd c10Old rfl).1.2.2,
    (remirror_evicts_predecessor c2Ctx c10Db c10Fs "idx" "base/" c2Stream [] "p1" c2Pm
      "20240101" c2Vd c10Old rfl).2 [] "root.tar" c2FailMeta [] "s1/p1/root.tar" "boom"
      rfl (by simp) rfl (Or.inr ⟨[[104, 101]], rfl⟩)
      (by
        intro i hi h1 h2
        exact List.mem_singleton.mp hi)
      (by
        intro i hi
        rw [List.mem_singleton.mp hi]
        decide)
      (by
        intro a ha
        rw [List.mem_singleton.mp ha]
        decide)⟩

theorem foldl_productsStep_notmem (artifacts : List ArtifactRow) (pid : String)
    (l : List ImageRow) (acc : Jobj) (h : ∀ i ∈ l, i.product_id ≠ pid) :
    alistGet (l.foldl (productsStep artifacts) acc) pid = alistGet acc pid := by
  induction l generalizing acc with
  | nil => rfl
  | cons img rest ih =>
    rw [List.foldl_cons]
    have hih := ih (productsStep artifacts acc img)
      (fun i hi => h i (List.mem_cons_of_mem _ hi))
    rw [hih]
    rw [productsStep]
    cases imageEntry img (artifactsOf artifacts img) with
    | none => rfl
    | some e =>
      exact alistGet_alistSet_ne acc img.product_id pid (.obj e)
        (h img (List.mem_cons_self _ _))

theorem foldl_productsStep_found (artifacts : List ArtifactRow) (pid : String)
    (l1 l2 : List ImageRow) (img : ImageRow) (acc : Jobj)
    (h1 : ∀ i ∈ l1, i.product_id ≠ pid) (h2 : ∀ i ∈ l2, i.product_id ≠ pid)
    (hp : img.product_id = pid) :
    alistGet ((l1 ++ img :: l2).foldl (productsStep artifacts) acc) pid =
      match imageEntry img (artifactsOf artifacts img) with
      | some e => some (.obj e)
      | none => alistGet acc pid := by
  rw [List.foldl_append, List.foldl_cons]
  cases he : imageEntry img (artifactsOf artifacts img) with
  | none =>
    rw [foldl_productsStep_notmem artifacts pid l2 _ h2]
    rw [productsStep, he]
    exact foldl_productsStep_notmem artifacts pid l1 acc h1
  | some e =>
    rw [foldl_productsStep_notmem artifacts pid l2 _ h2]
    rw [productsStep, he, hp]
    exact alistGet_alistSet_self _ _ _

/-- What the products file publishes for a product that has an image: exactly
the entry `_write_stream_products` derives from that image. -/
theorem writeStreamProducts_lookup (images : List ImageRow) (artifacts : List ArtifactRow)
    (pid : String) (img : ImageRow)
    (hnd : (images.map (fun i => i.product_id)).Nodup)
    (hmem : img ∈ images) (hpid : img.product_id = pid) :
    alistGet (writeStreamProducts images artifacts) pid =
      (imageEntry img (artifactsOf artifacts img)).map Json.obj := by
  have hperm : (sortImages images).Perm images := by
    rw [sortImages]
    exact List.perm_insertionSort _ images
  have hmemS : img ∈ sortImages images := hperm.mem_iff.mpr hmem
  obtain ⟨l1, l2, hsplit⟩ := List.append_of_mem hmemS
  have hndS : ((sortImages images).map (fun i => i.product_id)).Nodup :=
    (List.Perm.nodup_iff (hperm.map (fun i => i.product_id))).mpr hnd
  rw [hsplit] at hndS
  rw [List.map_append, List.map_cons] at hndS
  rw [List.nodup_append] at hndS
  obtain ⟨hnd1, hnd2, hdisj⟩ := hndS
  have h2 : ∀ i ∈ l2, i.product_id ≠ pid := by
    intro i hi hc
    have hcons := List.nodup_cons.mp hnd2
    exact hcons.1 (List.mem_map.mpr ⟨i, hi, hc.trans hpid.symm⟩)
  have h1 : ∀ i ∈ l1, i.product_id ≠ pid := by
    intro i hi hc
    refine hdisj (List.mem_map.mpr ⟨i, hi, hc.trans hpid.symm⟩) ?_
    exact List.mem_cons_self _ _
  rw [writeStreamProducts, hsplit,
    foldl_productsStep_found artifacts pid l1 l2 img [] h1 h2 hpid]
  cases imageEntry img (artifactsOf artifacts img) with
  | none => rfl
  | some e => rfl

/-- C1 (amended): the per-stream products file contains exactly the Images
with non-empty `meta`, whatever their status, and each published entry is the
image's `meta` with the descriptive-column defaults and the Artifact overrides
applied (`imageEntry`). -/
theorem products_file_contains_nonempty_meta (images : List ImageRow)
    (artifacts : List ArtifactRow) (pid : String) (img : ImageRow)
    (hnd : (images.map (fun i => i.product_id)).Nodup)
    (hmem : img ∈ images) (hpid : img.product_id = pid) :
    ((alistGet (writeStreamProducts images artifacts) pid).isSome = true ↔
      (img.meta.getD []).isEmpty = false) ∧
    alistGet (writeStreamProducts images artifacts) pid =
      (imageEntry img (artifactsOf artifacts img)).map Json.obj := by
  have hlk := writeStreamProducts_lookup images artifacts pid img hnd hmem hpid
  refine ⟨?_, hlk⟩
  rw [hlk, imageEntry]
  cases hE : (img.meta.getD []).isEmpty with
  | true => simp
  | false => simp

/-- C1 counterexample: an Image in status `error` (not `ready`) with non-empty
meta — its `product_id` DOES appear in the published products file, refuting
the claim that only ready Images are published. -/
theorem products_file_error_image_published :
    c1ErrImg.status = "error" ∧
    c1ErrImg.status ≠ "ready" ∧
    (alistGet (writeStreamProducts [c1ErrImg] []) "p1").isSome = true :=
  ⟨rfl, by decide, rfl⟩

/-- C1 witness: with one error and one ready image in the stream, the
published products file holds exactly the two non-empty-meta images, exposing
each one's derived entry. -/
theorem products_file_contains_nonempty_meta_witness :
    (((alistGet (writeStreamProducts [c1ErrImg, c1ReadyImg] []) "p2").isSome = true ↔
        (c1ReadyImg.meta.getD []).isEmpty = false) ∧
      alistGet (writeStreamProducts [c1ErrImg, c1ReadyImg] []) "p2" =
        (imageEntry c1ReadyImg (artifactsOf [] c1ReadyImg)).map Json.obj) ∧
    (((alistGet (writeStreamProducts [c1ErrImg, c1ReadyImg] []) "p1").isSome = true ↔
        (c1ErrImg.meta.getD []).isEmpty = false) ∧
      alistGet (writeStreamProducts [c1ErrImg, c1ReadyImg] []) "p1" =
        (imageEntry c1ErrImg (artifactsOf [] c1ErrImg)).map Json.obj) :=
  ⟨products_file_contains_nonempty_meta [c1ErrImg, c1ReadyImg] [] "p2" c1ReadyImg
      (by decide) (by simp) rfl,
    products_file_contains_nonempty_meta [c1ErrImg, c1ReadyImg] [] "p1" c1ErrImg
      (by decide) (by simp) rfl⟩

theorem shaOverride_get_ne (a : ArtifactRow) (j : Jobj) (k : String) (h : k ≠ "sha256") :
    alistGet (shaOverride a j) k = alistGet j k := by
  unfold shaOverride
  split
  · split
    · exact alistGet_alistSet_ne _ _ _ _ (fun hc => h hc.symm)
    · rfl
  · rfl

theorem sizeOverride_get_ne (a : ArtifactRow) (j : Jobj) (k : String) (h : k ≠ "size") :
    alistGet (sizeOverride a j) k = alistGet j k := by
  unfold sizeOverride
  split
  · split
    · exact alistGet_alistSet_ne _ _ _ _ (fun hc => h hc.symm)
    · rfl
  · rfl

theorem shaOverride_get_some (a : ArtifactRow) (j : Jobj) (s : String)
    (hs : a.sha256 = some s) (hne : s ≠ "") :
    alistGet (shaOverride a j) "sha256" = some (.str s) := by
  simp only [shaOverride, hs]
  rw [if_pos hne]
  exact alistGet_alistSet_self _ _ _

theorem sizeOverride_get_some (a : ArtifactRow) (j : Jobj) (n : Nat)
    (hn : a.size = some n) (hne : n ≠ 0) :
    alistGet (sizeOverride a j) "size" = some (.num n) := by
  simp only [sizeOverride, hn]
  rw [if_pos hne]
  exact alistGet_alistSet_self _ _ _

theorem shaOverride_falsy (a : ArtifactRow) (j : Jobj)
    (h : a.sha256 = none ∨ a.sha256 = some "") : shaOverride a j = j := by
  rcases h with h | h
  · simp only [shaOverride, h]
  · simp only [shaOverride, h]
    rw [if_neg (by simp)]

theorem sizeOverride_falsy (a : ArtifactRow) (j : Jobj)
    (h : a.size = none ∨ a.size = some 0) : sizeOverride a j = j := by
  rcases h with h | h
  · simp only [sizeOverride, h]
  · simp only [sizeOverride, h]
    rw [if_neg (by simp)]

theorem applyArtifact_override_spec (items : Jobj) (a : ArtifactRow) (item : Jobj)
    (hget : alistGet items a.name = some (.obj item)) :
    ∃ item2, alistGet (applyArtifactToItems items a) a.name = some (.obj item2) ∧
      overrideSpec item item2 a := by
  simp only [applyArtifactToItems, hget]
  refine ⟨_, alistGet_alistSet_self _ _ _, ?_, ?_, ?_, ?_, ?_⟩
  · rw [sizeOverride_get_ne _ _ _ (by decide), shaOverride_get_ne _ _ _ (by decide)]
    exact alistGet_alistSet_self _ _ _
  · intro s hs hne
    rw [sizeOverride_get_ne _ _ _ (by decide)]
    exact shaOverride_get_some _ _ _ hs hne
  · intro hcon
    rw [sizeOverride_get_ne _ _ _ (by decide), shaOverride_falsy _ _ hcon,
      alistGet_set_path_sha]
  · intro n hn hne
    exact sizeOverride_get_some _ _ _ hn hne
  · intro hcon
    rw [sizeOverride_falsy _ _ hcon, shaOverride_get_ne _ _ _ (by decide),
      alistGet_set_path_size]

theorem foldl_applyArtifact_notmem (arts : List ArtifactRow) (items : Jobj) (nm : String)
    (h : ∀ b ∈ arts, b.name ≠ nm) :
    alistGet (arts.foldl applyArtifactToItems items) nm = alistGet items nm := by
  induction arts generalizing items with
  | nil => rfl
  | cons b rest ih =>
    have hstep : alistGet (applyArtifactToItems items b) nm = alistGet items nm := by
      rw [applyArtifactToItems]
      cases hb : alistGet items b.name with
      | none => rfl
      | some v =>
        cases v with
        | null => rfl
        | bool x => rfl
        | num x => rfl
        | str x => rfl
        | arr x => rfl
        | obj item =>
          exact alistGet_alistSet_ne _ _ _ _ (h b (List.mem_cons_self _ _))
    rw [List.foldl_cons, ih _ (fun x hx => h x (List.mem_cons_of_mem _ hx)), hstep]

/-- C8 (amended): in the publisher's artifact-override loop, the published
item's `path` is always taken from the Artifact row, while `sha256` and `size`
are taken from the row only when the row's value is truthy (non-null and
non-empty / non-zero); a falsy row value leaves the meta value in place.  The
same holds across the whole artifact loop (for distinct artifact names) and
`overrideVersionData` stores the looped items back under `"items"`. -/
theorem publisher_artifact_override (items : Jobj) (a : ArtifactRow) (item : Jobj)
    (hget : alistGet items a.name = some (.obj item)) :
    (∃ item2, alistGet (applyArtifactToItems items a) a.name = some (.obj item2) ∧
      overrideSpec item item2 a) ∧
    (∀ arts1 arts2 : List ArtifactRow,
      (∀ b ∈ arts1, b.name ≠ a.name) → (∀ b ∈ arts2, b.name ≠ a.name) →
      ∃ item2,
        alistGet ((arts1 ++ a :: arts2).foldl applyArtifactToItems items) a.name =
          some (.obj item2) ∧ overrideSpec item item2 a) ∧
    (∀ (arts : List ArtifactRow) (vd : Jobj),
      alistGet (overrideVersionData arts vd) "items" =
        some (.obj (arts.foldl applyArtifactToItems (jgetObj vd "items")))) := by
  refine ⟨applyArtifact_override_spec items a item hget, ?_, ?_⟩
  · intro arts1 arts2 h1 h2
    rw [List.foldl_append, List.foldl_cons]
    have hget1 : alistGet (arts1.foldl applyArtifactToItems items) a.name =
        some (.obj item) := by
      rw [foldl_applyArtifact_notmem arts1 items a.name h1]
      exact hget
    obtain ⟨item2, happly, hspec⟩ :=
      applyArtifact_override_spec (arts1.foldl applyArtifactToItems items) a item hget1
    refine ⟨item2, ?_, hspec⟩
    rw [foldl_applyArtifact_notmem arts2 _ a.name h2]
    exact happly
  · intro arts vd
    rw [overrideVersionData]
    exact alistGet_alistSet_self _ _ _

/-- C8 counterexample: an Artifact row with `size = 0` and `sha256 = ""`
disagrees with the `meta` item (`size = 5`, `sha256 = "aa"`), yet the
published item keeps the meta values — the Artifact row does not win when its
value is falsy (only `path` is overridden unconditionally). -/
theorem publisher_artifact_zero_size_counterexample :
    c8Art.size = some 0 ∧ c8Art.sha256 = some "" ∧
    alistGet c8Item "path" = some (.str "new") ∧
    alistGet c8Item "size" = some (.num 5) ∧
    alistGet c8Item "sha256" = some (.str "aa") ∧
    (5 : Int) ≠ 0 ∧ "aa" ≠ "" :=
  ⟨rfl, rfl, rfl, rfl, rfl, by decide, by decide⟩

/-- C8 witness: the override rules applied to a concrete item and a truthy
Artifact row. -/
theorem publisher_artifact_override_witness :
    (∃ item2, alistGet (applyArtifactToItems c8WItems c8WArt) c8WArt.name =
        some (.obj item2) ∧ overrideSpec c8WItem0 item2 c8WArt) ∧
    (∀ arts1 arts2 : List ArtifactRow,
      (∀ b ∈ arts1, b.name ≠ c8WArt.name) → (∀ b ∈ arts2, b.name ≠ c8WArt.name) →
      ∃ item2,
        alistGet ((arts1 ++ c8WArt :: arts2).foldl applyArtifactToItems c8WItems)
          c8WArt.name = some (.obj item2) ∧ overrideSpec c8WItem0 item2 c8WArt) ∧
    (∀ (arts : List ArtifactRow) (vd : Jobj),
      alistGet (overrideVersionData arts vd) "items" =
        some (.obj (arts.foldl applyArtifactToItems (jgetObj vd "items")))) :=
  publisher_artifact_override c8WItems c8WArt c8WItem0 rfl

theorem foldl_rebuildStep_notmem (images : List ImageRow) (artifacts : List ArtifactRow)
    (now : String) (l : List StreamRow) (acc : RebuildOutput) (sid p : String)
    (hsid : ∀ s ∈ l, s.stream_id ≠ sid) (hp : ∀ s ∈ l, s.path ≠ p) :
    alistGet ((l.foldl (rebuildStep images artifacts now) acc)).indexEntries sid =
      alistGet acc.indexEntries sid ∧
    alistGet ((l.foldl (rebuildStep images artifacts now) acc)).productFiles p =
      alistGet acc.productFiles p := by
  induction l generalizing acc with
  | nil => exact ⟨rfl, rfl⟩
  | cons s rest ih =>
    rw [List.foldl_cons]
    have hstep : alistGet (rebuildStep images artifacts now acc s).indexEntries sid =
        alistGet acc.indexEntries sid ∧
        alistGet (rebuildStep images artifacts now acc s).productFiles p =
          alistGet acc.productFiles p := by
      rw [rebuildStep]
      split
      · exact ⟨rfl, rfl⟩
      · constructor
        · exact alistGet_alistSet_ne _ _ _ _ (hsid s (List.mem_cons_self _ _))
        · exact alistGet_alistSet_ne _ _ _ _ (hp s (List.mem_cons_self _ _))
    obtain ⟨h1, h2⟩ := ih (rebuildStep images artifacts now acc s)
      (fun x hx => hsid x (List.mem_cons_of_mem _ hx))
      (fun x hx => hp x (List.mem_cons_of_mem _ hx))
    exact ⟨h1.trans hstep.1, h2.trans hstep.2⟩

/-- Where `rebuild_simplestream_files` puts a non-empty stream: its index
entry under its `stream_id` and its products file at its `path`. -/
theorem rebuild_lookup (db : DB) (now : String) (s : StreamRow)
    (hs : s ∈ db.streams)
    (hndSid : (db.streams.map (fun t => t.stream_id)).Nodup)
    (hndPath : (db.streams.map (fun t => t.path)).Nodup)
    (hne : (imagesOfStream db.images s).isEmpty = false) :
    alistGet (rebuild_simplestream_files db now).indexEntries s.stream_id =
      some (indexEntry s (imagesOfStream db.images s) now) ∧
    alistGet (rebuild_simplestream_files db now).productFiles s.path =
      some (streamProductsFile s.stream_id now (imagesOfStream db.images s) db.artifacts) := by
  have hperm : (sortStreams db.streams).Perm db.streams := by
    rw [sortStreams]
    exact List.perm_insertionSort _ _
  have hmemS : s ∈ sortStreams db.streams := hperm.mem_iff.mpr hs
  obtain ⟨l1, l2, hsplit⟩ := List.append_of_mem hmemS
  have hndS1 : ((sortStreams db.streams).map (fun t => t.stream_id)).Nodup :=
    (List.Perm.nodup_iff (hperm.map (fun t => t.stream_id))).mpr hndSid
  have hndS2 : ((sortStreams db.streams).map (fun t => t.path)).Nodup :=
    (List.Perm.nodup_iff (hperm.map (fun t => t.path))).mpr hndPath
  rw [hsplit, List.map_append, List.map_cons, List.nodup_append] at hndS1 hndS2
  obtain ⟨_, hnd12, hdisj1⟩ := hndS1
  obtain ⟨_, hnd22, hdisj2⟩ := hndS2
  have h2sid : ∀ t ∈ l2, t.stream_id ≠ s.stream_id := by
    intro t ht hc
    exact (List.nodup_cons.mp hnd12).1 (List.mem_map.mpr ⟨t, ht, hc⟩)
  have h2p : ∀ t ∈ l2, t.path ≠ s.path := by
    intro t ht hc
    exact (List.nodup_cons.mp hnd22).1 (List.mem_map.mpr ⟨t, ht, hc⟩)
  rw [rebuild_simplestream_files, hsplit, List.foldl_append, List.foldl_cons]
  have hstep : rebuildStep db.images db.artifacts now
      (l1.foldl (rebuildStep db.images db.artifacts now) ⟨[], []⟩) s =
      { indexEntries := alistSet
          (l1.foldl (rebuildStep db.images db.artifacts now) ⟨[], []⟩).indexEntries
          s.stream_id (indexEntry s (imagesOfStream db.images s) now),
        productFiles := alistSet
          (l1.foldl (rebuildStep db.images db.artifacts now) ⟨[], []⟩).productFiles
          s.path (streamProductsFile s.stream_id now (imagesOfStream db.images s)
            db.artifacts) } := by
    rw [rebuildStep]
    simp only [hne]
    rfl
  rw [hstep]
  obtain ⟨hI, hP⟩ := foldl_rebuildStep_notmem db.images db.artifacts now l2 _
    s.stream_id s.path h2sid h2p
  rw [hI, hP]
  exact ⟨alistGet_alistSet_self _ _ _, alistGet_alistSet_self _ _ _⟩

/-- C9: an Image with empty (or null) `meta` is silently omitted from the
published products file even when it is `ready` and has Artifact rows, while
its `product_id` still appears in the stream's `index.json` products list. -/
theorem empty_meta_image_omitted (db : DB) (now : String) (s : StreamRow)
    (img : ImageRow) (pid : String)
    (hs : s ∈ db.streams)
    (hndSid : (db.streams.map (fun t => t.stream_id)).Nodup)
    (hndPath : (db.streams.map (fun t => t.path)).Nodup)
    (himg : img ∈ db.images) (hst : img.stream_id = s.id) (hpid : img.product_id = pid)
    (hmeta : img.meta.getD [] = [])
    (hnd : ((imagesOfStream db.images s).map (fun i => i.product_id)).Nodup) :
    pid ∈ indexProductsList (imagesOfStream db.images s) ∧
    alistGet (rebuild_simplestream_files db now).indexEntries s.stream_id =
      some (indexEntry s (imagesOfStream db.images s) now) ∧
    alistGet (indexEntry s (imagesOfStream db.images s) now) "products" =
      some (.arr ((indexProductsList (imagesOfStream db.images s)).map Json.str)) ∧
    alistGet (rebuild_simplestream_files db now).productFiles s.path =
      some (streamProductsFile s.stream_id now (imagesOfStream db.images s) db.artifacts) ∧
    alistGet (streamProductsFile s.stream_id now (imagesOfStream db.images s) db.artifacts)
      "products" =
      some (.obj (writeStreamProducts (imagesOfStream db.images s) db.artifacts)) ∧
    alistGet (writeStreamProducts (imagesOfStream db.images s) db.artifacts) pid = none := by
  have himgS : img ∈ imagesOfStream db.images s := by
    rw [imagesOfStream, List.mem_filter]
    exact ⟨himg, by simp [hst]⟩
  have hneN : imagesOfStream db.images s ≠ [] := List.ne_nil_of_mem himgS
  have hne : (imagesOfStream db.images s).isEmpty = false := by
    cases hE : (imagesOfStream db.images s).isEmpty
    · rfl
    · exact absurd (List.isEmpty_iff.mp hE) hneN
  obtain ⟨hI, hP⟩ := rebuild_lookup db now s hs hndSid hndPath hne
  have hentry : imageEntry img (artifactsOf db.artifacts img) = none := by
    rw [imageEntry]
    simp [hmeta]
  have hlk := writeStreamProducts_lookup (imagesOfStream db.images s) db.artifacts pid img
    hnd himgS hpid
  rw [hentry] at hlk
  refine ⟨?_, hI, ?_, hP, ?_, hlk⟩
  · rw [indexProductsList]
    refine (List.perm_insertionSort _ _).mem_iff.mpr ?_
    exact List.mem_map.mpr ⟨img, himgS, hpid⟩
  · rfl
  · rfl

/-- C9 witness: a ready Image with an Artifact row but empty meta — listed in
the stream's index products, absent from the products file. -/
theorem empty_meta_image_omitted_witness :
    "p9" ∈ indexProductsList (imagesOfStream c9Db.images c2Stream) ∧
    alistGet (rebuild_simplestream_files c9Db "now").indexEntries c2Stream.stream_id =
      some (indexEntry c2Stream (imagesOfStream c9Db.images c2Stream) "now") ∧
    alistGet (indexEntry c2Stream (imagesOfStream c9Db.images c2Stream) "now") "products" =
      some (.arr ((indexProductsList (imagesOfStream c9Db.images c2Stream)).map Json.str)) ∧
    alistGet (rebuild_simplestream_files c9Db "now").productFiles c2Stream.path =
      some (streamProductsFile c2Stream.stream_id "now"
        (imagesOfStream c9Db.images c2Stream) c9Db.artifacts) ∧
    alistGet (streamProductsFile c2Stream.stream_id "now"
        (imagesOfStream c9Db.images c2Stream) c9Db.artifacts) "products" =
      some (.obj (writeStreamProducts (imagesOfStream c9Db.images c2Stream)
        c9Db.artifacts)) ∧
    alistGet (writeStreamProducts (imagesOfStream c9Db.images c2Stream) c9Db.artifacts)
      "p9" = none :=
  empty_meta_image_omitted c9Db "now" c2Stream c9Img "p9" (by simp [c9Db]) (by decide)
    (by decide) (by simp [c9Db]) rfl rfl rfl (by decide)

end CustomStream

